import Mathlib

/-!
# Verification of the PEDSA associative-memory engine

A shallow embedding of the PEDSA engine (`src/main.rs`, `src/storage.rs`)
in Lean 4, together with theorems settling the specification claims.

Conventions of the embedding:
* Rust machine integers become `Nat` (unsigned) or `Int` (signed) with
  explicit `% 2^64` wrapping where the source can wrap.
* Rust `f32` weights and rates become `ℚ`; the `as u16` cast becomes a
  saturating truncation.  Every claim proved below only exercises these
  quantities at points where the `f32` computation is exact (products of
  integers ≤ 65535 with rates such as `1.0`), so no rounding is lost.
* `AHashMap` becomes an association list whose operations mirror
  `entry(..).or_default()` (append on miss, in-place update on hit) and
  `insert` (overwrite on hit, append on miss).
* Strings are handled as `List Char` and, where the source works on the
  UTF-8 byte representation (`extract_timestamp`, hashing), as the UTF-8
  byte list.  `to_lowercase` is modelled as ASCII lowercasing; every
  character appearing in the claims is either ASCII or CJK (unaffected by
  Unicode lowercasing), so the model agrees with the source there.
* `println!` logging is side-effect free and dropped.
-/

/-! ## 64-bit arithmetic helpers -/

/-- Wrap to 64 bits, the behaviour of Rust `u64` arithmetic. -/
def m64 (n : Nat) : Nat := n % 18446744073709551616

/-- Wrapping 64-bit subtraction `a - b`. -/
def sub64 (a b : Nat) : Nat := m64 (a + (18446744073709551616 - m64 b))

/-- 64-bit left rotation (`u64::rotate_left`); `x` is assumed < 2^64. -/
def rotl64 (x r : Nat) : Nat := m64 ((x <<< r) ||| (x >>> (64 - r)))

/-- Little-endian read of a byte list into a `Nat`
(`u64::from_le_bytes` / `u32::from_le_bytes`). -/
def readLE (l : List Nat) : Nat := l.foldr (fun b acc => acc * 256 + b) 0

/-- The 8 little-endian bytes of a `u64` (`u64::to_ne_bytes` on a
little-endian target, as used by `Hasher::write_u64`). -/
def leBytes8 (v : Nat) : List Nat := (List.range 8).map (fun i => v / 256 ^ i % 256)

/-- `u64::count_ones`: the number of set bits among bits 0..63. -/
def popcount64 (n : Nat) : Nat := (List.range 64).countP (fun i => n.testBit i)

/-! ## XxHash64 (the `twox_hash::XxHash64` hasher used by the engine)

A direct embedding of the XXH64 algorithm; streaming a byte sequence
through `XxHash64` and calling `finish` equals `xxh64 seed bytes`.
Recursions use the byte count as structural fuel so that every
definition reduces in the kernel. -/

def xxP1 : Nat := 0x9E3779B185EBCA87
def xxP2 : Nat := 0xC2B2AE3D27D4EB4F
def xxP3 : Nat := 0x165667B19E3779F9
def xxP4 : Nat := 0x85EBCA77C2B2AE63
def xxP5 : Nat := 0x27D4EB2F165667C5

/-- One XXH64 accumulator round. -/
def xxRound (acc input : Nat) : Nat :=
  m64 (rotl64 (m64 (acc + m64 (input * xxP2))) 31 * xxP1)

/-- XXH64 merge of one accumulator into the digest. -/
def xxMerge (h v : Nat) : Nat := m64 ((h ^^^ xxRound 0 v) * xxP1 + xxP4)

/-- Consume 32-byte stripes into the four accumulators. -/
def xxStripes : Nat → Nat → Nat → Nat → Nat → List Nat →
    Nat × Nat × Nat × Nat × List Nat
  | 0, v1, v2, v3, v4, l => (v1, v2, v3, v4, l)
  | fuel + 1, v1, v2, v3, v4, l =>
    if 32 ≤ l.length then
      xxStripes fuel
        (xxRound v1 (readLE (l.take 8)))
        (xxRound v2 (readLE ((l.drop 8).take 8)))
        (xxRound v3 (readLE ((l.drop 16).take 8)))
        (xxRound v4 (readLE ((l.drop 24).take 8)))
        (l.drop 32)
    else (v1, v2, v3, v4, l)

/-- Consume trailing 8-byte words into the digest. -/
def xxTail8 : Nat → Nat → List Nat → Nat × List Nat
  | 0, h, l => (h, l)
  | fuel + 1, h, l =>
    if 8 ≤ l.length then
      xxTail8 fuel (m64 (rotl64 (h ^^^ xxRound 0 (readLE (l.take 8))) 27 * xxP1 + xxP4))
        (l.drop 8)
    else (h, l)

/-- Consume the final loose bytes into the digest. -/
def xxTail1 : List Nat → Nat → Nat
  | [], h => h
  | b :: rest, h => xxTail1 rest (m64 (rotl64 (h ^^^ m64 (b * xxP5)) 11 * xxP1))

/-- XXH64 final avalanche. -/
def xxAvalanche (h0 : Nat) : Nat :=
  let h1 := h0 ^^^ (h0 >>> 33)
  let h2 := m64 (h1 * xxP2)
  let h3 := h2 ^^^ (h2 >>> 29)
  let h4 := m64 (h3 * xxP3)
  h4 ^^^ (h4 >>> 32)

/-- XXH64 of a byte sequence with the given seed. -/
def xxh64 (seed : Nat) (bytes : List Nat) : Nat :=
  let n := bytes.length
  let start :=
    if 32 ≤ n then
      let s := xxStripes n (m64 (seed + xxP1 + xxP2)) (m64 (seed + xxP2)) (m64 seed)
        (sub64 seed xxP1) bytes
      let v1 := s.1
      let v2 := s.2.1
      let v3 := s.2.2.1
      let v4 := s.2.2.2.1
      let h0 := m64 (rotl64 v1 1 + rotl64 v2 7 + rotl64 v3 12 + rotl64 v4 18)
      (xxMerge (xxMerge (xxMerge (xxMerge h0 v1) v2) v3) v4, s.2.2.2.2)
    else (m64 (seed + xxP5), bytes)
  let afterLen := m64 (start.1 + n)
  let t8 := xxTail8 n afterLen start.2
  let t4 :=
    if 4 ≤ t8.2.length then
      (m64 (rotl64 (t8.1 ^^^ m64 (readLE (t8.2.take 4) * xxP1)) 23 * xxP2 + xxP3), t8.2.drop 4)
    else t8
  xxAvalanche (xxTail1 t4.2 t4.1)

/-! ## Text utilities

Strings are processed as `List Char`; where the source operates on UTF-8
bytes we encode explicitly. -/

/-- `char::to_lowercase` restricted to ASCII.  Every character the claims
exercise is ASCII or CJK, where this agrees with Unicode lowercasing. -/
def lowerChar (c : Char) : Char :=
  if 'A' ≤ c ∧ c ≤ 'Z' then Char.ofNat (c.toNat + 32) else c

/-- `str::to_lowercase` on a character list. -/
def lowerChars (l : List Char) : List Char := l.map lowerChar

/-- `str::to_lowercase` on a `String`. -/
def lowerString (s : String) : String := ⟨lowerChars s.data⟩

/-- UTF-8 encoding of one character. -/
def utf8Char (c : Char) : List Nat :=
  let v := c.toNat
  if v < 0x80 then [v]
  else if v < 0x800 then [0xC0 ||| (v >>> 6), 0x80 ||| (v &&& 0x3F)]
  else if v < 0x10000 then
    [0xE0 ||| (v >>> 12), 0x80 ||| ((v >>> 6) &&& 0x3F), 0x80 ||| (v &&& 0x3F)]
  else
    [0xF0 ||| (v >>> 18), 0x80 ||| ((v >>> 12) &&& 0x3F),
     0x80 ||| ((v >>> 6) &&& 0x3F), 0x80 ||| (v &&& 0x3F)]

/-- UTF-8 encoding of a character list (`str::as_bytes`). -/
def utf8 (l : List Char) : List Nat := l.foldr (fun c acc => utf8Char c ++ acc) []

/-- `str::contains(pat)`: substring containment.  Byte-level containment on
valid UTF-8 coincides with character-level containment because UTF-8 is
self-synchronising. -/
def listContains (hay pat : List Char) : Bool :=
  (List.range (hay.length + 1)).any (fun i => pat.isPrefixOf (hay.drop i))

/-- `str::contains` over `String`s. -/
def strContains (hay pat : String) : Bool := listContains hay.data pat.data

/-- `str::split_whitespace`: maximal runs of non-whitespace characters. -/
def splitWs (l : List Char) : List (List Char) :=
  let p := l.foldr
    (fun c (acc : List Char × List (List Char)) =>
      if c.isWhitespace then
        if acc.1.isEmpty then ([], acc.2) else ([], acc.1 :: acc.2)
      else (c :: acc.1, acc.2))
    ([], [])
  if p.1.isEmpty then p.2 else p.1 :: p.2

/-- The hash Rust's `Hash for str` feeds to `XxHash64` with seed `s`:
the UTF-8 bytes followed by the `0xFF` terminator byte. -/
def rustStrHash (seed : Nat) (l : List Char) : Nat := xxh64 seed (utf8 l ++ [0xFF])

/-- The hash Rust's `Hash for u64` feeds to `XxHash64` with seed `s`:
the 8 native-endian (little-endian) bytes. -/
def rustU64Hash (seed v : Nat) : Nat := xxh64 seed (leBytes8 (m64 v))

/-! ## SimHash: the partitioned multimodal fingerprint (`main.rs` §1) -/

namespace SimHash

def MASK_SEMANTIC : Nat := 0xFFFFFFFF
def MASK_TEMPORAL : Nat := 0xFFFF00000000
def MASK_AFFECTIVE : Nat := 0x00FF000000000000
def MASK_TYPE : Nat := 0xFF00000000000000

def TYPE_UNKNOWN : Nat := 0x00
def TYPE_PERSON : Nat := 0x01
def TYPE_TECH : Nat := 0x02
def TYPE_EVENT : Nat := 0x03
def TYPE_OBJECT : Nat := 0x05

def EDGE_REPRESENTATION : Nat := 0
def EDGE_EQUALITY : Nat := 1
def EDGE_INHIBITION : Nat := 255

/-- `update_v_32`: hash a token and nudge the 32 signed counters.
Counters are `Int` (the source's `i32` cannot overflow for any input the
claims touch). -/
def update_v_32 (v : List Int) (token : List Char) : List Int :=
  let hash := rustStrHash 0 token
  (List.range 32).map (fun i => v.getD i 0 + (if hash.testBit i then 1 else -1))

/-- `compute_text_hash_32`: 32-bit semantic SimHash over whitespace tokens
and then over each individual character. -/
def compute_text_hash_32 (text : List Char) : Nat :=
  let text_lower := lowerChars text
  let v0 : List Int := List.replicate 32 0
  let v1 := (splitWs text_lower).foldl update_v_32 v0
  let v2 := text_lower.foldl (fun v c => update_v_32 v [c]) v1
  (List.range 32).foldl (fun fp i => if 0 < v2.getD i 0 then fp ||| (1 <<< i) else fp) 0

/-- `compute_temporal_hash`: low 16 bits of the seed-12345 hash of the
timestamp. -/
def compute_temporal_hash (timestamp : Nat) : Nat :=
  rustU64Hash 12345 timestamp &&& 0xFFFF

/-- The per-emotion keyword table of `get_emotion_keywords`, transcribed
verbatim from the source. -/
def emotionKeywordTable : List (Nat × List String) := [
  (1, ["开心", "欣慰", "棒", "成功", "快乐", "幸福", "高兴", "喜悦", "兴奋", "爽", "nice", "happy", "good", "great", "满意", "舒服", "赞", "完美", "优秀", "庆祝", "哈哈", "lol", "awesome", "perfect", "satisfied", "enjoy", "love", "喜欢", "爱", "满足", "得意", "狂喜", "luck", "win", "yeah", "酷", "cool", "fun", "funny", "glad", "pleased", "delight", "爽翻", "乐", "best", "wonderful"]),
  (2, ["害羞", "不好意思", "脸红", "谢谢", "感谢", "信任", "依靠", "抱歉", "依赖", "相信", "敬佩", "认同", "support", "trust", "believe", "thanks", "agree", "accept", "admire", "忠诚", "老实", "可靠", "靠谱", "实在", "真诚", "坦诚", "honest", "loyal", "faith", "true", "real", "safe", "secure", "respect", "appreciate"]),
  (4, ["害怕", "担心", "焦虑", "恐惧", "紧张", "慌", "吓", "恐怖", "吓人", "没底", "忐忑", "不安", "危机", "风险", "afraid", "scared", "worry", "nervous", "panic", "risk", "惊慌", "胆怯", "畏惧", "alarm", "dread", "terror", "怕", "悚", "提心吊胆", "danger", "threat", "horror", "anxiety"]),
  (8, ["没想到", "竟然", "惊讶", "震惊", "卧槽", "牛逼", "哇", "居然", "意外", "奇迹", "神奇", "amazing", "wow", "omg", "surprise", "shock", "incredible", "unbelievable", "猝不及防", "愣住", "startle", "astonish", "惊呆", "傻眼", "措手不及", "wonder", "stun", "sudden", "unexpected"]),
  (16, ["难过", "低落", "失望", "遗憾", "伤心", "痛苦", "悲伤", "哭", "泪", "可惜", "抑郁", "沮丧", "孤独", "惨", "完蛋", "心碎", "depressed", "sad", "sorry", "miss", "fail", "lost", "lonely", "哀伤", "凄凉", "苦恼", "grief", "mourn", "upset", "痛", "郁闷", "心酸", "hurt", "cry", "weep", "pity", "heartbroken"]),
  (32, ["讨厌", "不喜欢", "烂", "恶心", "烦", "滚", "垃圾", "差劲", "无语", "鄙视", "恶劣", "丑陋", "shit", "hate", "dislike", "suck", "bad", "nasty", "awful", "boring", "反感", "鄙夷", "唾弃", "revulsion", "loathe", "呸", "滚蛋", "废物", "trash", "garbage", "gross", "yuck", "sick"]),
  (64, ["生气", "恼火", "不爽", "愤怒", "怒", "恨", "气死", "暴躁", "妈的", "靠", "投诉", "furious", "mad", "angry", "rage", "fuck", "damn", "火大", "发飙", "irritate", "resent", "outrage", "气炸", "找死", "闭嘴", "shut up", "piss off", "annoy"]),
  (128, ["期待", "愿景", "未来", "规划", "希望", "想要", "盼望", "准备", "计划", "打算", "目标", "憧憬", "等待", "wait", "plan", "goal", "hope", "expect", "ready", "wish", "渴望", "预感", "祈祷", "祝愿", "look forward", "desire", "pray", "dream", "seek"])]

/-- `extract_emotion`: set an emotion bit on the first keyword hit per
group (the inner `break` is the `any`). -/
def extract_emotion (text : List Char) : Nat :=
  let text_lower := lowerChars text
  emotionKeywordTable.foldl
    (fun emotion fk =>
      if fk.2.any (fun kw => listContains text_lower kw.data) then emotion ||| fk.1
      else emotion)
    0

/-- `compute_multimodal`: assemble the four fingerprint zones. -/
def compute_multimodal (text : List Char) (timestamp : Nat) (emotion_val type_val : Nat) :
    Nat :=
  let fp0 := (compute_text_hash_32 text) &&& MASK_SEMANTIC
  let fp1 :=
    if 0 < timestamp then fp0 ||| ((compute_temporal_hash timestamp <<< 32) &&& MASK_TEMPORAL)
    else fp0
  let fp2 := fp1 ||| ((emotion_val <<< 48) &&& MASK_AFFECTIVE)
  fp2 ||| ((type_val <<< 56) &&& MASK_TYPE)

/-- `compute`: the legacy interface (text only). -/
def compute (text : List Char) : Nat := compute_multimodal text 0 0 0

/-- The relative-time cascade of `compute_for_query` (the chained
`if`/`else if` on the lowercased query); returns 0 when no branch fires.
`u64::saturating_sub` is `Nat` subtraction. -/
def relativeTimestamp (q : List Char) (ref_time : Nat) : Nat :=
  if 0 < ref_time then
    if listContains q "今天".data || listContains q "今日".data || listContains q "today".data ||
       listContains q "now".data || listContains q "此刻".data || listContains q "当前".data then
      ref_time
    else if listContains q "昨天".data || listContains q "昨日".data ||
       listContains q "yesterday".data then ref_time - 86400
    else if listContains q "前天".data || listContains q "前日".data then ref_time - 172800
    else if listContains q "大前天".data then ref_time - 259200
    else if listContains q "前几天".data || listContains q "最近".data ||
       listContains q "recently".data then ref_time - 259200
    else if listContains q "上周".data || listContains q "last week".data then ref_time - 604800
    else if listContains q "上个月".data || listContains q "上月".data ||
       listContains q "last month".data then ref_time - 2592000
    else if listContains q "去年".data || listContains q "last year".data then
      ref_time - 31536000
    else if listContains q "前年".data then ref_time - 63072000
    else if listContains q "刚才".data || listContains q "刚刚".data ||
       listContains q "just now".data then ref_time - 60
    else if listContains q "早上".data || listContains q "上午".data ||
       listContains q "morning".data then ref_time
    else 0
  else 0

/-- The timestamp `compute_for_query` resolves: the relative cascade, then
the absolute-year fallback (three independent `if`s, later years win). -/
def queryTimestamp (q : List Char) (ref_time : Nat) : Nat :=
  let ts := relativeTimestamp q ref_time
  if ts = 0 then
    let t1 := if listContains q "2024".data then 1704067200 else 0
    let t2 := if listContains q "2025".data then 1735689600 else t1
    if listContains q "2026".data then 1767225600 else t2
  else ts

/-- The type-inference cascade of `compute_for_query`. -/
def queryTypeVal (q : List Char) : Nat :=
  if listContains q "pero".data || listContains q "用户".data || listContains q "女孩".data then
    TYPE_PERSON
  else if listContains q "rust".data || listContains q "代码".data ||
     listContains q "算法".data then TYPE_TECH
  else if listContains q "事情".data || listContains q "发生".data then TYPE_EVENT
  else if listContains q "蝴蝶结".data || listContains q "键盘".data then TYPE_OBJECT
  else TYPE_UNKNOWN

/-- `compute_for_query`: query fingerprint with relative-time resolution,
emotion extraction and type inference. -/
def compute_for_query (query : List Char) (ref_time : Nat) : Nat :=
  let query_lower := lowerChars query
  let timestamp := queryTimestamp query_lower ref_time
  let emotion := extract_emotion query_lower
  let type_val := queryTypeVal query_lower
  compute_multimodal query_lower timestamp emotion type_val

/-- `similarity_weighted`: masked Hamming similarity.  The `f32` result is
modelled in `ℚ` (numerators and denominators are ≤ 64). -/
def similarity_weighted (a b mask : Nat) : ℚ :=
  let dist := popcount64 ((a ^^^ b) &&& mask)
  let total_bits := popcount64 mask
  if total_bits = 0 then 0 else 1 - (dist : ℚ) / (total_bits : ℚ)

/-- `similarity`: full-mask similarity. -/
def similarity (a b : Nat) : ℚ := similarity_weighted a b 0xFFFFFFFFFFFFFFFF

end SimHash

/-! ## Association-list maps (the `AHashMap`s of the engine)

`aupdate` mirrors `entry(k).or_default()` followed by an in-place update:
on a miss the new entry is appended; `ainsert` mirrors `HashMap::insert`.
Keys are unique by construction. -/

/-- Lookup in an association list. -/
def alookup {κ α : Type} [DecidableEq κ] : List (κ × α) → κ → Option α
  | [], _ => none
  | p :: rest, k => if p.1 = k then some p.2 else alookup rest k

/-- `entry(k).or_default()` followed by applying `f` to the entry. -/
def aupdate {κ α : Type} [DecidableEq κ] (m : List (κ × α)) (k : κ) (dflt : α)
    (f : α → α) : List (κ × α) :=
  if (alookup m k).isSome then m.map (fun p => if p.1 = k then (p.1, f p.2) else p)
  else m ++ [(k, f dflt)]

/-- `HashMap::insert` (overwrite on hit, append on miss). -/
def ainsert {κ α : Type} [DecidableEq κ] (m : List (κ × α)) (k : κ) (v : α) :
    List (κ × α) :=
  if (alookup m k).isSome then m.map (fun p => if p.1 = k then (p.1, v) else p)
  else m ++ [(k, v)]

/-! ## Core data structures (`main.rs` §2) -/

inductive NodeType where
  | Feature
  | Event
deriving DecidableEq, Repr

structure GraphEdge where
  target_node_id : Int
  connection_strength : Nat
  edge_type : Nat
deriving DecidableEq, Repr

structure Node where
  id : Int
  node_type : NodeType
  content : String
  fingerprint : Nat
  timestamp : Nat
  emotions : List Nat
  prev_event : Option Int
  next_event : Option Int
deriving DecidableEq, Repr

/-- The 512-bit chaos fingerprint (`storage.rs`): eight `u64` lanes. -/
structure ChaosFingerprint where
  data : List Nat
deriving DecidableEq, Repr

/-- `ChaosFingerprint::default()`: all lanes zero. -/
def cfZero : ChaosFingerprint := ⟨List.replicate 8 0⟩

/-- `ChaosFingerprint::hamming_distance`. -/
def ChaosFingerprint.hamming_distance (a b : ChaosFingerprint) : Nat :=
  (a.data.zip b.data).foldl (fun acc p => acc + popcount64 (p.1 ^^^ p.2)) 0

/-- `StorageEngine::quantize_vector`: sign quantization of a (f16) vector,
lane `i` bit `j` set iff component `i*64+j` is positive. -/
def quantize_vector (vec : List ℚ) : ChaosFingerprint :=
  ⟨(List.range 8).map (fun i =>
    (List.range 64).foldl
      (fun chunk j =>
        let idx := i * 64 + j
        if idx < vec.length ∧ 0 < vec.getD idx 0 then chunk ||| (1 <<< j) else chunk)
      0)⟩

/-- The chaos SoA store (`main.rs` §3). -/
structure ChaosStore where
  ids : List Int
  fingerprints : List ChaosFingerprint
  vectors : List (List ℚ)
  id_to_index : List (Int × Nat)
deriving DecidableEq, Repr

def ChaosStore.new : ChaosStore := ⟨[], [], [], []⟩

/-- `ChaosStore::add`: append, unless the id is already present. -/
def ChaosStore.add (s : ChaosStore) (id : Int) (fp : ChaosFingerprint)
    (vec : List ℚ) : ChaosStore :=
  if (alookup s.id_to_index id).isSome then s
  else
    { ids := s.ids ++ [id]
      fingerprints := s.fingerprints ++ [fp]
      vectors := s.vectors ++ [vec]
      id_to_index := ainsert s.id_to_index id s.ids.length }

/-! ## The advanced engine (`main.rs` §3)

Fields not touched by any claim are omitted: `ac_matcher` (the compiled
automaton, an index over `feature_keywords`), `in_degrees` (retrieval
only) and `async_task` (a no-op hook).  The external embedding model is
an opaque `text → vector` function, `none` in every state the claims
construct (the spec declares the embedder an external collaborator). -/

structure AdvancedEngine where
  nodes : List (Int × Node)
  chaos_store : ChaosStore
  graph : List (Int × List GraphEdge)
  ontology_graph : List (Int × List GraphEdge)
  feature_keywords : List String
  keyword_to_node : List (String × Int)
  temporal_index : List (Nat × List Int)
  affective_index : List (Nat × List Int)
  embedding_model : Option (String → Option (List ℚ))

/-- `AdvancedEngine::new()`. -/
def AdvancedEngine.new : AdvancedEngine :=
  { nodes := [], chaos_store := ChaosStore.new, graph := [], ontology_graph := []
    feature_keywords := [], keyword_to_node := [], temporal_index := []
    affective_index := [], embedding_model := none }

/-- The stopword list, transcribed verbatim (the two copies in
`add_feature` and `get_or_create_feature` are identical). -/
def stopwords : List String := [
  "的", "是", "了", "在", "我", "你", "他", "她", "它", "们", "这", "那", "都", "和",
  "并", "且", "也", "就", "着", "吧", "吗", "呢", "啊", "呀", "呜", "哎", "哼", "呸",
  "喽", "a", "an", "the", "about", "above", "across", "after", "against", "along", "among", "around", "at", "before",
  "behind", "below", "beneath", "beside", "between", "beyond", "but", "by", "despite", "down", "during", "except", "for", "from",
  "in", "inside", "into", "like", "near", "of", "off", "on", "onto", "out", "outside", "over", "past", "since",
  "through", "throughout", "till", "to", "toward", "under", "underneath", "until", "up", "upon", "with", "within", "without", "i",
  "me", "my", "mine", "we", "us", "our", "ours", "you", "your", "yours", "he", "him", "his", "she",
  "her", "hers", "it", "its", "they", "them", "their", "theirs", "this", "that", "these", "those", "who", "whom",
  "whose", "which", "what", "each", "every", "either", "neither", "some", "any", "no", "none", "both", "few", "many",
  "other", "another", "am", "is", "are", "was", "were", "be", "being", "been", "have", "has", "had", "do",
  "does", "did", "shall", "will", "should", "would", "may", "might", "must", "can", "could", "and", "or", "so",
  "nor", "yet", "although", "because", "unless", "while", "where", "when", "how", "whether"]

/-- `AdvancedEngine::add_feature`: silently dropped for stopwords,
otherwise inserts a Feature node and registers the keyword. -/
def AdvancedEngine.add_feature (e : AdvancedEngine) (id : Int) (keyword : String) :
    AdvancedEngine :=
  let keyword_lower := lowerString keyword
  if stopwords.contains keyword_lower then e
  else
    let node : Node :=
      { id := id, node_type := NodeType.Feature, content := keyword_lower
        fingerprint := SimHash.compute keyword_lower.data, timestamp := 0
        emotions := [], prev_event := none, next_event := none }
    { e with
      nodes := ainsert e.nodes id node
      feature_keywords := e.feature_keywords ++ [keyword_lower]
      keyword_to_node := ainsert e.keyword_to_node keyword_lower id }

/-- `u64` cast of a parsed `i32` (2's-complement reinterpretation). -/
def i32ToU64 (v : Int) : Nat := (v % 18446744073709551616).toNat

/-- `i64` reinterpretation of a `u64` hash value. -/
def u64ToI64 (h : Nat) : Int :=
  if h < 9223372036854775808 then (h : Int) else (h : Int) - 18446744073709551616

/-- `i64::abs` with Rust's release-mode wrapping at `i64::MIN`. -/
def absI64 (v : Int) : Int :=
  if v = -9223372036854775808 then v else if v < 0 then -v else v

/-- `AdvancedEngine::get_or_create_feature`: `-1` for stopwords, the
registered id on a hit, and otherwise the absolute value of the seed-0
`XxHash64` of the lowercased word, registering it via `add_feature`. -/
def AdvancedEngine.get_or_create_feature (e : AdvancedEngine) (word : String) :
    Int × AdvancedEngine :=
  let word_lower := lowerString word
  if stopwords.contains word_lower then (-1, e)
  else
    match alookup e.keyword_to_node word_lower with
    | some id => (id, e)
    | none =>
      let id := absI64 (u64ToI64 (rustStrHash 0 word_lower.data))
      (id, e.add_feature id word_lower)

/-- Rust `f32 as u16`: truncation toward zero, saturating at the type
bounds. -/
def u16cast (x : ℚ) : Nat := if x ≤ 0 then 0 else min 65535 (Int.toNat ⌊x⌋)

/-- Rust `f32::clamp`. -/
def qclamp (x lo hi : ℚ) : ℚ := if x < lo then lo else if hi < x then hi else x

/-- Update the first edge with the given target (`iter_mut().find`). -/
def updateFirstEdge : List GraphEdge → Int → (GraphEdge → GraphEdge) → List GraphEdge
  | [], _, _ => []
  | ed :: rest, tgt, f =>
    if ed.target_node_id = tgt then f ed :: rest else ed :: updateFirstEdge rest tgt f

/-- `AdvancedEngine::add_edge`: quantize the weight; on a duplicate edge
keep the larger strength, else push a type-0 edge. -/
def AdvancedEngine.add_edge (e : AdvancedEngine) (src tgt : Int) (weight : ℚ) :
    AdvancedEngine :=
  let quantized := u16cast (qclamp weight 0 1 * 65535)
  { e with
    graph := aupdate e.graph src [] (fun edges =>
      if edges.any (fun ed => ed.target_node_id == tgt) then
        updateFirstEdge edges tgt (fun ed =>
          if quantized > ed.connection_strength then
            { ed with connection_strength := quantized }
          else ed)
      else edges ++ [{ target_node_id := tgt, connection_strength := quantized,
                       edge_type := 0 }]) }

/-- The per-direction edge maintenance of `maintain_ontology`: Hebbian
reinforcement (`u16::saturating_add` is `min 65535`) on an existing edge,
else push. -/
def maintainEdge (edges : List GraphEdge) (tgtId : Int) (strength_u16 edge_type : Nat) :
    List GraphEdge :=
  if edges.any (fun ed => ed.target_node_id == tgtId) then
    updateFirstEdge edges tgtId (fun ed =>
      { ed with
        connection_strength :=
          max (min 65535 (ed.connection_strength + strength_u16 / 2)) strength_u16
        edge_type := edge_type })
  else edges ++ [{ target_node_id := tgtId, connection_strength := strength_u16,
                   edge_type := edge_type }]

/-- The relation-type mapping of `maintain_ontology`. -/
def relationEdgeType (relation_type : String) : Nat :=
  let r := lowerString relation_type
  if r = "equality" ∨ r = "equal" then 1
  else if r = "inhibition" ∨ r = "conflict" then 255
  else 0

/-- `AdvancedEngine::maintain_ontology`: resolve both endpoints, update the
forward edge, and mirror the update for Equality/Inhibition edges. -/
def AdvancedEngine.maintain_ontology (e : AdvancedEngine) (source target relation_type : String)
    (strength : ℚ) : AdvancedEngine :=
  let r1 := e.get_or_create_feature source
  let src_id := r1.1
  let r2 := r1.2.get_or_create_feature target
  let tgt_id := r2.1
  let e2 := r2.2
  let strength_u16 := u16cast (strength * 65535)
  let edge_type := relationEdgeType relation_type
  let g1 := aupdate e2.ontology_graph src_id []
    (fun edges => maintainEdge edges tgt_id strength_u16 edge_type)
  let g2 :=
    if edge_type = 1 ∨ edge_type = 255 then
      aupdate g1 tgt_id [] (fun edges => maintainEdge edges src_id strength_u16 edge_type)
    else g1
  { e2 with ontology_graph := g2 }

/-- Decay of one edge strength: `(current as f32 * decay_rate) as u16`. -/
def decayStrength (s : Nat) (rate : ℚ) : Nat := u16cast ((s : ℚ) * rate)

/-- `AdvancedEngine::apply_global_decay_and_pruning`: scale every ontology
edge, then retain only edges with strength strictly above the threshold;
returns the new engine and the pruned count. -/
def AdvancedEngine.apply_global_decay_and_pruning (e : AdvancedEngine) (decay_rate : ℚ)
    (threshold : Nat) : AdvancedEngine × Nat :=
  let decayed := e.ontology_graph.map (fun p =>
    (p.1, p.2.map (fun ed =>
      { ed with connection_strength := decayStrength ed.connection_strength decay_rate })))
  let newGraph := decayed.map (fun p =>
    (p.1, p.2.filter (fun ed => threshold < ed.connection_strength)))
  let pruned := (decayed.zip newGraph).foldl
    (fun acc p => acc + (p.1.2.length - p.2.2.length)) 0
  ({ e with ontology_graph := newGraph }, pruned)

/-- `AdvancedEngine::apply_arbitration`: resolve the source and each
target content via the vocabulary, then drop the matching edges from the
source's ontology adjacency list. -/
def AdvancedEngine.apply_arbitration (e : AdvancedEngine) (source : String)
    (delete_targets : List String) : AdvancedEngine :=
  match alookup e.keyword_to_node (lowerString source) with
  | none => e
  | some src_id =>
    match alookup e.ontology_graph src_id with
    | none => e
    | some _ =>
      let target_ids := delete_targets.foldl
        (fun acc t =>
          match alookup e.keyword_to_node (lowerString t) with
          | some tid => acc ++ [tid]
          | none => acc)
        ([] : List Int)
      if target_ids.isEmpty then e
      else
        { e with ontology_graph := e.ontology_graph.map (fun p =>
            if p.1 = src_id then
              (p.1, p.2.filter (fun ed => ¬ target_ids.contains ed.target_node_id))
            else p) }

/-- `AdvancedEngine::execute_maintenance` (state effect): `upsert` and
`replace` both run `maintain_ontology`; `replace` additionally calls the
read-only `trigger_arbitration` to extract a context string; any other
action only logs a warning. -/
def AdvancedEngine.execute_maintenance (e : AdvancedEngine) (action source target relation_type :
    String) (strength : ℚ) : AdvancedEngine :=
  let a := lowerString action
  if a = "upsert" then e.maintain_ontology source target relation_type strength
  else if a = "replace" then e.maintain_ontology source target relation_type strength
  else e

/-! ## Timestamp extraction and event insertion (`main.rs`) -/

/-- UTF-8 bytes of the three CJK date markers. -/
def yearBytes : List Nat := utf8 "年".data
def monthBytes : List Nat := utf8 "月".data
def dayBytes : List Nat := utf8 "日".data

/-- `str::is_char_boundary` on the byte list. -/
def isCharBoundary (bytes : List Nat) (i : Nat) : Bool :=
  if i = 0 then true
  else
    match bytes.get? i with
    | some b => b < 0x80 || 0xC0 ≤ b
    | none => i == bytes.length

/-- `str::trim` at byte level (ASCII whitespace; no multi-byte whitespace
occurs next to the date digits the claims exercise). -/
def trimBytes (l : List Nat) : List Nat :=
  let ws := fun (b : Nat) => b = 32 ∨ (9 ≤ b ∧ b ≤ 13)
  ((l.dropWhile (fun b => ws b)).reverse.dropWhile (fun b => ws b)).reverse

/-- `str::parse::<i32>()`: optional sign, one or more ASCII digits, in
`i32` range (an overflowing literal fails, as in Rust). -/
def parseI32 (bytes : List Nat) : Option Int :=
  let signDigits : Int × List Nat :=
    match bytes with
    | 43 :: rest => (1, rest)
    | 45 :: rest => (-1, rest)
    | _ => (1, bytes)
  if signDigits.2.isEmpty then none
  else if signDigits.2.all (fun b => 48 ≤ b ∧ b ≤ 57) then
    let v : Nat := signDigits.2.foldl (fun acc b => acc * 10 + (b - 48)) 0
    let signed : Int := signDigits.1 * v
    if -2147483648 ≤ signed ∧ signed ≤ 2147483647 then some signed else none
  else none

/-- `str::find(pat)`: first byte index of the pattern. -/
def findSub (hay pat : List Nat) : Option Nat :=
  ((List.range (hay.length + 1)).filter (fun i => pat.isPrefixOf (hay.drop i))).head?

/-- One iteration of the `extract_timestamp` scan at an occurrence of
`年`: parse the 4 preceding bytes as the year, find `月` within 5 bytes,
parse the month, optionally find `日` within 5 bytes and parse the day
(default 1), and build
`(year - 1970) * 31536000 + month * 2592000 + day * 86400`
in wrapping `u64` arithmetic.  `none` means the source's loop continues. -/
def tryParseAtYearIdx (bytes : List Nat) (year_idx : Nat) : Option Nat :=
  if 4 ≤ year_idx ∧ isCharBoundary bytes (year_idx - 4) then
    match parseI32 ((bytes.drop (year_idx - 4)).take 4) with
    | none => none
    | some year =>
      let rest := bytes.drop (year_idx + 3)
      match findSub rest monthBytes with
      | none => none
      | some month_idx =>
        if month_idx ≤ 5 then
          match parseI32 (trimBytes (rest.take month_idx)) with
          | none => none
          | some month =>
            let rest_day := rest.drop (month_idx + 3)
            let day : Int :=
              match findSub rest_day dayBytes with
              | some day_idx =>
                if day_idx ≤ 5 then
                  match parseI32 (trimBytes (rest_day.take day_idx)) with
                  | some d => d
                  | none => 1
                else 1
              | none => 1
            some (m64 (m64 (sub64 (i32ToU64 year) 1970 * 31536000) +
              m64 (i32ToU64 month * 2592000) + m64 (i32ToU64 day * 86400)))
        else none
  else none

/-- `AdvancedEngine::extract_timestamp` over the UTF-8 bytes: the first
occurrence of `年` whose year and month parse wins; otherwise the default
2023-01-01 stamp `1672531200`. -/
def extract_timestamp_bytes (bytes : List Nat) : Nat :=
  let hit := ((List.range bytes.length).filter
      (fun i => yearBytes.isPrefixOf (bytes.drop i))).foldl
    (fun acc i =>
      match acc with
      | some t => some t
      | none => tryParseAtYearIdx bytes i)
    none
  match hit with
  | some ts => ts
  | none => 1672531200

/-- `AdvancedEngine::extract_timestamp` on a string. -/
def extract_timestamp (text : String) : Nat := extract_timestamp_bytes (utf8 text.data)

/-- `AdvancedEngine::calculate_chaos`: `none` without an embedding model;
with one, quantize the externally produced vector.  (The AC-matcher
weighted ranges are consumed by the external embedder and do not affect
the engine state.) -/
def AdvancedEngine.calculate_chaos (e : AdvancedEngine) (text : String) :
    Option (ChaosFingerprint × List ℚ) :=
  match e.embedding_model with
  | none => none
  | some f =>
    match f text with
    | none => none
    | some vec => some (quantize_vector vec, vec)

/-- `AdvancedEngine::add_event`: extract timestamp and emotion, build the
multimodal fingerprint, store the node (and chaos data when present), and
update the temporal and affective inverted indexes. -/
def AdvancedEngine.add_event (e : AdvancedEngine) (id : Int) (summary : String)
    (chaos_fp : Option ChaosFingerprint) (chaos_vec : Option (List ℚ)) :
    AdvancedEngine :=
  let timestamp := extract_timestamp summary
  let emotion_val := SimHash.extract_emotion summary.data
  let fingerprint := SimHash.compute_multimodal summary.data timestamp emotion_val 0
  let cfp0 := chaos_fp.getD cfZero
  let cvec0 := chaos_vec.getD []
  let cpair :=
    if cfp0 = cfZero ∧ cvec0 = [] then
      match e.calculate_chaos summary with
      | some p => p
      | none => (cfp0, cvec0)
    else (cfp0, cvec0)
  let emotions := (List.range 8).foldl
    (fun acc i => if emotion_val &&& (1 <<< i) ≠ 0 then acc ++ [1 <<< i] else acc) []
  let node : Node :=
    { id := id, node_type := NodeType.Event, content := summary
      fingerprint := fingerprint, timestamp := timestamp, emotions := emotions
      prev_event := none, next_event := none }
  let e1 := { e with nodes := ainsert e.nodes id node }
  let e2 :=
    if cpair.1 ≠ cfZero ∨ cpair.2 ≠ [] then
      { e1 with chaos_store := e1.chaos_store.add id cpair.1 cpair.2 }
    else e1
  let e3 :=
    if fingerprint &&& SimHash.MASK_TEMPORAL ≠ 0 then
      { e2 with temporal_index :=
          (aupdate e2.temporal_index ((fingerprint &&& SimHash.MASK_TEMPORAL) >>> 32) []
            (fun l => l ++ [id])) }
    else e2
  if fingerprint &&& SimHash.MASK_AFFECTIVE ≠ 0 then
    let emotion_hash := (fingerprint &&& SimHash.MASK_AFFECTIVE) >>> 48
    { e3 with affective_index := ((List.range 8).foldl
        (fun idx i =>
          if emotion_hash &&& (1 <<< i) ≠ 0 then aupdate idx (1 <<< i) [] (fun l => l ++ [id])
          else idx)
        e3.affective_index) }
  else e3

/-! ## SoA binary storage engine (`storage.rs`)

Files are modelled at the granularity `persist` manipulates them: the
index file as its parsed SoA regions plus header (the byte-level 32-byte
padding is reflected in the recomputed offsets), the payload file as its
byte list.  `persist` is split into its five externally visible steps so
that interruption points can be quantified over:

1. write the merged index to the sibling `.tmp` index file;
2. write the merged payload to the sibling `.tmp` data file;
3. rename the tmp index file over the index file;
4. rename the tmp data file over the data file;
5. clear the hot buffer and remap the renamed files. -/

structure IndexHeaderM where
  magic : Nat
  version : Nat
  node_count : Nat
  simhash_offset : Nat
  id_offset : Nat
  metadata_offset : Nat
  chaos_fingerprint_offset : Nat
  chaos_vector_offset : Nat
deriving DecidableEq, Repr

structure NodeMetadataM where
  data_offset : Nat
  data_len : Nat
  node_type : Nat
deriving DecidableEq, Repr

/-- The parsed content of an index file. -/
structure IndexContent where
  header : IndexHeaderM
  simhashes : List Nat
  ids : List Int
  metadata : List NodeMetadataM
  chaos_fingerprints : List ChaosFingerprint
  chaos_vectors : List ℚ
deriving DecidableEq, Repr

/-- `StorageEngine`: the mmap'd SoA regions plus the hot insert buffer. -/
structure StorageEngine where
  header : IndexHeaderM
  simhashes : List Nat
  ids : List Int
  metadata : List NodeMetadataM
  chaos_fingerprints : List ChaosFingerprint
  chaos_vectors : List ℚ
  data_mmap : List Nat
  buffer_simhashes : List Nat
  buffer_ids : List Int
  buffer_texts : List (List Nat)
  buffer_node_types : List Nat
  buffer_chaos_fingerprints : List ChaosFingerprint
  buffer_chaos_vectors : List ℚ
deriving DecidableEq, Repr

/-- The two on-disk files plus the sibling tmp files (absent = `none`). -/
structure StorageFiles where
  indexFile : IndexContent
  dataFile : List Nat
  tmpIndexFile : Option IndexContent
  tmpDataFile : Option (List Nat)
deriving DecidableEq, Repr

/-- `StorageEngine::insert_node`: append one node to the hot buffer
(vectors are zero-filled unless exactly `VECTOR_DIM = 512` wide). -/
def StorageEngine.insert_node (s : StorageEngine) (id : Int) (simhash : Nat)
    (text : List Nat) (node_type : Nat) (chaos_fp : ChaosFingerprint)
    (chaos_vec : List ℚ) : StorageEngine :=
  { s with
    buffer_ids := s.buffer_ids ++ [id]
    buffer_simhashes := s.buffer_simhashes ++ [simhash]
    buffer_texts := s.buffer_texts ++ [text]
    buffer_node_types := s.buffer_node_types ++ [node_type]
    buffer_chaos_fingerprints := s.buffer_chaos_fingerprints ++ [chaos_fp]
    buffer_chaos_vectors := s.buffer_chaos_vectors ++
      (if chaos_vec.length = 512 then chaos_vec else List.replicate 512 0) }

/-- `align_to(offset, align)`: `(offset + align - 1) & !(align - 1)` in
`u64` arithmetic. -/
def align_to (offset align : Nat) : Nat :=
  (offset + align - 1) &&& (18446744073709551616 - align)

/-- The new metadata records `persist` writes for buffered nodes, with the
payload offset running from the end of the old payload file. -/
def newMetadataEntries (start : Nat) : List (List Nat × Nat) → List NodeMetadataM
  | [] => []
  | p :: rest =>
    { data_offset := start, data_len := p.1.length, node_type := p.2 } ::
      newMetadataEntries (start + p.1.length) rest

/-- The merged index content `persist` writes to the tmp index file:
recomputed 32-byte-aligned offsets (`size_of::<IndexHeader>() = 64`,
`size_of::<NodeMetadata>() = 16`, `size_of::<ChaosFingerprint>() = 64`),
then each old region followed by the buffered entries. -/
def mergedIndexContent (s : StorageEngine) : IndexContent :=
  let new_node_count := s.header.node_count + s.buffer_ids.length
  let simhash_offset := align_to 64 32
  let id_offset := align_to (simhash_offset + new_node_count * 8) 32
  let metadata_offset := align_to (id_offset + new_node_count * 8) 32
  let chaos_fingerprint_offset := align_to (metadata_offset + new_node_count * 16) 32
  let chaos_vector_offset := align_to (chaos_fingerprint_offset + new_node_count * 64) 32
  { header :=
      { magic := s.header.magic, version := s.header.version
        node_count := new_node_count, simhash_offset := simhash_offset
        id_offset := id_offset, metadata_offset := metadata_offset
        chaos_fingerprint_offset := chaos_fingerprint_offset
        chaos_vector_offset := chaos_vector_offset }
    simhashes := s.simhashes ++ s.buffer_simhashes
    ids := s.ids ++ s.buffer_ids
    metadata := s.metadata ++
      newMetadataEntries s.data_mmap.length (s.buffer_texts.zip s.buffer_node_types)
    chaos_fingerprints := s.chaos_fingerprints ++ s.buffer_chaos_fingerprints
    chaos_vectors := s.chaos_vectors ++ s.buffer_chaos_vectors }

/-- The merged payload `persist` writes to the tmp data file. -/
def mergedData (s : StorageEngine) : List Nat :=
  s.data_mmap ++ s.buffer_texts.foldr (fun t acc => t ++ acc) []

/-- `StorageEngine::new` on already-renamed files: parse the index regions
and start with an empty hot buffer. -/
def reloadStorage (fs : StorageFiles) : StorageEngine :=
  { header := fs.indexFile.header, simhashes := fs.indexFile.simhashes
    ids := fs.indexFile.ids, metadata := fs.indexFile.metadata
    chaos_fingerprints := fs.indexFile.chaos_fingerprints
    chaos_vectors := fs.indexFile.chaos_vectors, data_mmap := fs.dataFile
    buffer_simhashes := [], buffer_ids := [], buffer_texts := []
    buffer_node_types := [], buffer_chaos_fingerprints := []
    buffer_chaos_vectors := [] }

/-- One numbered step of `persist` (see the section header). -/
def persistStep (p : StorageEngine × StorageFiles) (step : Nat) :
    StorageEngine × StorageFiles :=
  if step = 1 then (p.1, { p.2 with tmpIndexFile := some (mergedIndexContent p.1) })
  else if step = 2 then (p.1, { p.2 with tmpDataFile := some (mergedData p.1) })
  else if step = 3 then
    match p.2.tmpIndexFile with
    | some c => (p.1, { p.2 with indexFile := c, tmpIndexFile := none })
    | none => p
  else if step = 4 then
    match p.2.tmpDataFile with
    | some d => (p.1, { p.2 with dataFile := d, tmpDataFile := none })
    | none => p
  else if step = 5 then (reloadStorage p.2, p.2)
  else p

/-- The first `k` steps of `StorageEngine::persist` (`k = 5` is the
complete call; smaller `k` is an interruption after step `k`).  An empty
hot buffer returns immediately. -/
def persistUpTo (k : Nat) (p : StorageEngine × StorageFiles) :
    StorageEngine × StorageFiles :=
  if p.1.buffer_ids.isEmpty then p
  else (List.range k).foldl (fun acc i => persistStep acc (i + 1)) p

/-- `StorageEngine::persist`: all five steps. -/
def StorageEngine.persist (p : StorageEngine × StorageFiles) :
    StorageEngine × StorageFiles := persistUpTo 5 p

/-- Alignment invariant of the chaos store: the three SoA columns have
equal length, `id_to_index` maps `ids[i]` to `i`, and an id is mapped iff
it occurs in `ids`. -/
def ChaosAligned (s : ChaosStore) : Prop :=
  s.ids.length = s.fingerprints.length ∧ s.ids.length = s.vectors.length ∧
  (∀ i, (h : i < s.ids.length) → alookup s.id_to_index s.ids[i] = some i) ∧
  (∀ id : Int, (alookup s.id_to_index id).isSome ↔ id ∈ s.ids)

/-- A sequence of `ChaosStore::add` calls from the empty store. -/
def runChaosAdds (ops : List (Int × ChaosFingerprint × List ℚ)) : ChaosStore :=
  ops.foldl (fun s op => s.add op.1 op.2.1 op.2.2) ChaosStore.new


/-- A concrete storage state for the C4 counterexample: an empty disk
image with one hot-buffered node. -/
def c4Header : IndexHeaderM :=
  { magic := 0x50454453415F5633, version := 2, node_count := 0, simhash_offset := 64
    id_offset := 64, metadata_offset := 64, chaos_fingerprint_offset := 64
    chaos_vector_offset := 64 }

def c4Index0 : IndexContent :=
  { header := c4Header, simhashes := [], ids := [], metadata := []
    chaos_fingerprints := [], chaos_vectors := [] }

def c4Storage0 : StorageEngine :=
  { header := c4Header, simhashes := [], ids := [], metadata := []
    chaos_fingerprints := [], chaos_vectors := [], data_mmap := []
    buffer_simhashes := [], buffer_ids := [], buffer_texts := []
    buffer_node_types := [], buffer_chaos_fingerprints := [], buffer_chaos_vectors := [] }

def c4State : StorageEngine := c4Storage0.insert_node 1 7 [104, 105] 1 cfZero []

def c4Files : StorageFiles :=
  { indexFile := c4Index0, dataFile := [], tmpIndexFile := none, tmpDataFile := none }

/-! ## Claim-level definitions -/

/-- Byte-level substring containment (`str::match_indices` emptiness /
`str::find` at byte granularity). -/
def bytesContain (hay pat : List Nat) : Bool :=
  (List.range (hay.length + 1)).any (fun i => pat.isPrefixOf (hay.drop i))

/-- The C8 counterexample engine: one `add_event` whose summary carries a
parsable date `1970年0月0日` that the extraction formula maps to 0. -/
def c8CounterEngine : AdvancedEngine :=
  AdvancedEngine.new.add_event 1 "x1970年0月0日" none none

/-- A maintenance-surface operation (the calls quantified over by the
ontology-symmetry claim). -/
inductive MaintOp where
  | maintain (source target relation_type : String) (strength : ℚ)
  | execute (action source target relation_type : String) (strength : ℚ)
  | arbitrate (source : String) (delete_targets : List String)

/-- Apply one maintenance operation to the engine. -/
def MaintOp.apply (e : AdvancedEngine) : MaintOp → AdvancedEngine
  | .maintain s t r w => e.maintain_ontology s t r w
  | .execute a s t r w => e.execute_maintenance a s t r w
  | .arbitrate s ts => e.apply_arbitration s ts

/-- Whether the operation is an `apply_arbitration` call. -/
def MaintOp.isArbitrate : MaintOp → Bool
  | .arbitrate _ _ => true
  | _ => false

/-- Run a sequence of maintenance operations from a fresh engine. -/
def runMaintOps (ops : List MaintOp) : AdvancedEngine :=
  ops.foldl MaintOp.apply AdvancedEngine.new

/-- The claimed C1 invariant: every Equality/Inhibition ontology edge has
a reverse edge with the same strength and the same edge type. -/
def EdgeSymmSameStrength (g : List (Int × List GraphEdge)) : Prop :=
  ∀ p ∈ g, ∀ ed ∈ p.2, (ed.edge_type = 1 ∨ ed.edge_type = 255) →
    ∃ q ∈ g, q.1 = ed.target_node_id ∧ ∃ ed2 ∈ q.2,
      ed2.target_node_id = p.1 ∧ ed2.edge_type = ed.edge_type ∧
      ed2.connection_strength = ed.connection_strength

/-- The provable weakening: every Equality/Inhibition ontology edge has a
reverse edge (of some strength and type). -/
def EdgeMutual (g : List (Int × List GraphEdge)) : Prop :=
  ∀ p ∈ g, ∀ ed ∈ p.2, (ed.edge_type = 1 ∨ ed.edge_type = 255) →
    ∃ q ∈ g, q.1 = ed.target_node_id ∧ ∃ ed2 ∈ q.2, ed2.target_node_id = p.1

/-- C1 counterexample trace A: an Equality edge later re-asserted as
Representation in the forward direction only. -/
def c1TraceA : List MaintOp :=
  [MaintOp.maintain "cat" "dog" "equality" (1 / 2),
   MaintOp.maintain "cat" "dog" "representation" (1 / 2)]

/-- C1 counterexample trace B: an Equality pair whose forward direction is
then deleted by arbitration. -/
def c1TraceB : List MaintOp :=
  [MaintOp.maintain "cat" "dog" "equality" 1,
   MaintOp.arbitrate "cat" ["dog"]]

/-! ## Helper lemmas -/

theorem charOfNat_toNat (n : Nat) (hv : n.isValidChar) : (Char.ofNat n).toNat = n := by
  rw [Char.ofNat, dif_pos hv]
  simp [Char.ofNatAux, Char.toNat, UInt32.toNat, Nat.toUInt32]

theorem char_le_iff_toNat (a b : Char) : a ≤ b ↔ a.toNat ≤ b.toNat := by
  rw [Char.le_def]
  constructor
  · intro h
    exact h
  · intro h
    exact h

theorem lowerChar_idem (c : Char) : lowerChar (lowerChar c) = lowerChar c := by
  unfold lowerChar
  split
  case isTrue h =>
    have hA : (65 : Nat) ≤ c.toNat := (char_le_iff_toNat 'A' c).mp h.1
    have hZ : c.toNat ≤ 90 := (char_le_iff_toNat c 'Z').mp h.2
    have hv : (c.toNat + 32).isValidChar := by
      left
      omega
    have ht : (Char.ofNat (c.toNat + 32)).toNat = c.toNat + 32 := charOfNat_toNat _ hv
    rw [if_neg]
    intro hcon
    have h2 := (char_le_iff_toNat _ 'Z').mp hcon.2
    rw [ht] at h2
    have : ('Z' : Char).toNat = 90 := by decide
    omega
  case isFalse h =>
    rfl

theorem lowerChars_idem (l : List Char) : lowerChars (lowerChars l) = lowerChars l := by
  unfold lowerChars
  rw [List.map_map]
  apply List.map_congr_left
  intro c _
  exact lowerChar_idem c

theorem lowerString_idem (s : String) : lowerString (lowerString s) = lowerString s := by
  unfold lowerString
  exact congrArg String.mk (lowerChars_idem s.data)

theorem alookup_append {κ α : Type} [DecidableEq κ] (m1 m2 : List (κ × α)) (k : κ) :
    alookup (m1 ++ m2) k =
      match alookup m1 k with
      | some v => some v
      | none => alookup m2 k := by
  induction m1 with
  | nil => simp [alookup]
  | cons p rest ih =>
    by_cases hp : p.1 = k
    · simp [alookup, hp]
    · simp [alookup, hp, ih]

theorem alookup_map_update_self {κ α : Type} [DecidableEq κ] (m : List (κ × α)) (k : κ)
    (g : α → α) :
    alookup (m.map (fun p => if p.1 = k then (p.1, g p.2) else p)) k =
      (alookup m k).map g := by
  induction m with
  | nil => simp [alookup]
  | cons p rest ih =>
    by_cases hp : p.1 = k
    · simp [alookup, hp]
    · simp [alookup, hp, ih]

theorem alookup_map_update_ne {κ α : Type} [DecidableEq κ] (m : List (κ × α)) (k k' : κ)
    (g : α → α) (hk : k' ≠ k) :
    alookup (m.map (fun p => if p.1 = k then (p.1, g p.2) else p)) k' = alookup m k' := by
  induction m with
  | nil => simp [alookup]
  | cons p rest ih =>
    have hkk : ¬ (k = k') := fun h => hk h.symm
    by_cases hp : p.1 = k
    · simp [alookup, hp, hkk, ih]
    · by_cases hpk' : p.1 = k'
      · simp [alookup, hp, hpk', hk]
      · simp [alookup, hp, hpk', ih]

theorem alookup_aupdate_self {κ α : Type} [DecidableEq κ] (m : List (κ × α)) (k : κ)
    (d : α) (f : α → α) :
    alookup (aupdate m k d f) k = some (f ((alookup m k).getD d)) := by
  unfold aupdate
  split
  case isTrue hs =>
    rw [alookup_map_update_self]
    rcases Option.isSome_iff_exists.mp hs with ⟨v, hv⟩
    rw [hv]
    rfl
  case isFalse hs =>
    rw [alookup_append]
    rw [Option.not_isSome_iff_eq_none] at hs
    rw [hs]
    simp [alookup]

theorem alookup_aupdate_ne {κ α : Type} [DecidableEq κ] (m : List (κ × α)) (k k' : κ)
    (d : α) (f : α → α) (hk : k' ≠ k) :
    alookup (aupdate m k d f) k' = alookup m k' := by
  unfold aupdate
  split
  case isTrue hs =>
    exact alookup_map_update_ne m k k' f hk
  case isFalse hs =>
    rw [alookup_append]
    have : alookup [(k, f d)] k' = none := by
      have : ¬ (k = k') := fun h => hk h.symm
      simp [alookup, this]
    rw [this]
    cases alookup m k' <;> rfl

theorem alookup_ainsert_self {κ α : Type} [DecidableEq κ] (m : List (κ × α)) (k : κ)
    (v : α) : alookup (ainsert m k v) k = some v := by
  unfold ainsert
  split
  case isTrue hs =>
    have := alookup_map_update_self m k (fun _ => v)
    rw [this]
    rcases Option.isSome_iff_exists.mp hs with ⟨w, hw⟩
    rw [hw]
    rfl
  case isFalse hs =>
    rw [alookup_append]
    rw [Option.not_isSome_iff_eq_none] at hs
    rw [hs]
    simp [alookup]

theorem alookup_ainsert_ne {κ α : Type} [DecidableEq κ] (m : List (κ × α)) (k k' : κ)
    (v : α) (hk : k' ≠ k) : alookup (ainsert m k v) k' = alookup m k' := by
  unfold ainsert
  split
  case isTrue hs =>
    exact alookup_map_update_ne m k k' (fun _ => v) hk
  case isFalse hs =>
    rw [alookup_append]
    have : alookup [(k, v)] k' = none := by
      have : ¬ (k = k') := fun h => hk h.symm
      simp [alookup, this]
    rw [this]
    cases alookup m k' <;> rfl

/-! ## C7: weighted similarity -/

/-- **C7.**  For every 64-bit fingerprint `q` and mask `m`: with a
non-empty mask, `similarity_weighted q q m = 1`; for all `a`, `b` the
result lies in `[0, 1]`; with an all-zero mask the result is `0`. -/
theorem c7_similarity_weighted_props (a b q m : Nat) :
    (0 < popcount64 m → SimHash.similarity_weighted q q m = 1) ∧
    (0 ≤ SimHash.similarity_weighted a b m ∧ SimHash.similarity_weighted a b m ≤ 1) ∧
    (popcount64 m = 0 → SimHash.similarity_weighted a b m = 0) := by
  refine ⟨?_, ?_, ?_⟩
  · intro h
    have hz : popcount64 ((q ^^^ q) &&& m) = 0 := by
      rw [Nat.xor_self, Nat.zero_and]
      decide
    simp only [SimHash.similarity_weighted, hz]
    rw [if_neg (Nat.pos_iff_ne_zero.mp h)]
    push_cast
    rw [zero_div, sub_zero]
  · have hd : popcount64 ((a ^^^ b) &&& m) ≤ popcount64 m := by
      apply List.countP_mono_left
      intro i _ hp
      rw [Nat.testBit_land] at hp
      simp only [Bool.and_eq_true] at hp
      exact hp.2
    simp only [SimHash.similarity_weighted]
    by_cases ht : popcount64 m = 0
    · rw [if_pos ht]
      norm_num
    · rw [if_neg ht]
      have htp : (0 : ℚ) < (popcount64 m : ℚ) := by
        exact_mod_cast Nat.pos_of_ne_zero ht
      have hdq : (popcount64 ((a ^^^ b) &&& m) : ℚ) ≤ (popcount64 m : ℚ) := by
        exact_mod_cast hd
      have h0 : (0 : ℚ) ≤ (popcount64 ((a ^^^ b) &&& m) : ℚ) := by positivity
      have hr1 : (popcount64 ((a ^^^ b) &&& m) : ℚ) / (popcount64 m : ℚ) ≤ 1 :=
        (div_le_one htp).mpr hdq
      have hr0 : (0 : ℚ) ≤ (popcount64 ((a ^^^ b) &&& m) : ℚ) / (popcount64 m : ℚ) :=
        div_nonneg h0 (le_of_lt htp)
      constructor <;> linarith
  · intro h
    simp [SimHash.similarity_weighted, h]

/-- Witness for C7 at concrete inputs. -/
theorem c7_witness :
    (0 < popcount64 7 ∧ SimHash.similarity_weighted 5 5 7 = 1) ∧
    (popcount64 0 = 0 ∧ SimHash.similarity_weighted 1 2 0 = 0) :=
  ⟨⟨by decide, (c7_similarity_weighted_props 1 2 5 7).1 (by decide)⟩,
   ⟨by decide, (c7_similarity_weighted_props 1 2 5 0).2.2 (by decide)⟩⟩

/-! ## C6: repeated `add_edge` takes the max weight -/

theorem updateFirstEdge_append (L : List GraphEdge) (e1 : GraphEdge) (t : Int)
    (f : GraphEdge → GraphEdge) (hL : ∀ ed ∈ L, ed.target_node_id ≠ t)
    (he : e1.target_node_id = t) :
    updateFirstEdge (L ++ [e1]) t f = L ++ [f e1] := by
  induction L with
  | nil => simp [updateFirstEdge, he]
  | cons ed rest ih =>
    have hed : ed.target_node_id ≠ t := hL ed (by simp)
    simp only [List.cons_append, updateFirstEdge, if_neg hed]
    exact congrArg (ed :: ·) (ih (fun x hx => hL x (by simp [hx])))

theorem u16cast_mono {x y : ℚ} (h : x ≤ y) : u16cast x ≤ u16cast y := by
  unfold u16cast
  by_cases hx : x ≤ 0
  · simp [hx]
  · have hy : ¬ y ≤ 0 := fun hy => hx (le_trans h hy)
    rw [if_neg hx, if_neg hy]
    have h1 : ⌊x⌋ ≤ ⌊y⌋ := Int.floor_le_floor h
    have h2 : ⌊x⌋.toNat ≤ ⌊y⌋.toNat := Int.toNat_le_toNat h1
    omega

theorem qclamp_of_bounds {w : ℚ} (h0 : 0 ≤ w) (h1 : w ≤ 1) : qclamp w 0 1 = w := by
  unfold qclamp
  rw [if_neg (not_lt.mpr h0), if_neg (not_lt.mpr h1)]

/-- **C6.**  Starting from a state with no `s → t` edge, two `add_edge`
calls with weights `w1, w2 ∈ [0,1]` leave exactly one edge to `t` in the
adjacency list of `s`, whose strength is the max of the two quantized
weights, equal to the quantization of `max w1 w2`. -/
theorem c6_add_edge_twice (e : AdvancedEngine) (s t : Int) (w1 w2 : ℚ)
    (hw1 : 0 ≤ w1 ∧ w1 ≤ 1) (hw2 : 0 ≤ w2 ∧ w2 ≤ 1)
    (hnone : ∀ ed ∈ (alookup e.graph s).getD [], ed.target_node_id ≠ t) :
    ((alookup ((e.add_edge s t w1).add_edge s t w2).graph s).getD []).filter
        (fun ed => ed.target_node_id == t) =
      [({ target_node_id := t
          connection_strength := max (u16cast (qclamp w1 0 1 * 65535))
            (u16cast (qclamp w2 0 1 * 65535))
          edge_type := 0 } :
        GraphEdge)] ∧
    max (u16cast (qclamp w1 0 1 * 65535)) (u16cast (qclamp w2 0 1 * 65535)) =
      u16cast (qclamp (max w1 w2) 0 1 * 65535) := by
  have hq1 : u16cast (qclamp w1 0 1 * 65535) = u16cast (w1 * 65535) := by
    rw [qclamp_of_bounds hw1.1 hw1.2]
  have hq2 : u16cast (qclamp w2 0 1 * 65535) = u16cast (w2 * 65535) := by
    rw [qclamp_of_bounds hw2.1 hw2.2]
  set L := (alookup e.graph s).getD [] with hL
  set q1 := u16cast (qclamp w1 0 1 * 65535) with hq1d
  set q2 := u16cast (qclamp w2 0 1 * 65535) with hq2d
  have hany : L.any (fun ed => ed.target_node_id == t) = false := by
    rw [List.any_eq_false]
    intro ed hed
    simpa using hnone ed hed
  have hstep1 : alookup (e.add_edge s t w1).graph s =
      some (L ++ [({ target_node_id := t, connection_strength := q1, edge_type := 0 } :
        GraphEdge)]) := by
    unfold AdvancedEngine.add_edge
    rw [alookup_aupdate_self, ← hL, hany]
    simp
  have hedge1 : ({ target_node_id := t, connection_strength := q1, edge_type := 0 } :
      GraphEdge).target_node_id = t := rfl
  have hany2 : (L ++ [({ target_node_id := t, connection_strength := q1, edge_type := 0 } :
      GraphEdge)]).any (fun ed => ed.target_node_id == t) = true := by
    rw [List.any_append]
    simp
  have hstep2 : alookup ((e.add_edge s t w1).add_edge s t w2).graph s =
      some (L ++ [({ target_node_id := t, connection_strength := max q1 q2, edge_type := 0 } :
        GraphEdge)]) := by
    conv =>
      lhs
      rw [AdvancedEngine.add_edge]
    rw [alookup_aupdate_self, hstep1]
    simp only [Option.getD_some, hany2, if_true]
    rw [updateFirstEdge_append L _ t _ hnone hedge1]
    by_cases hgt : q2 > q1
    · rw [if_pos hgt]
      rw [Nat.max_eq_right (le_of_lt hgt)]
    · rw [if_neg hgt]
      rw [Nat.max_eq_left (Nat.le_of_not_lt hgt)]
  constructor
  · rw [hstep2]
    simp only [Option.getD_some, List.filter_append]
    have h1 : L.filter (fun ed => ed.target_node_id == t) = [] := by
      rw [List.filter_eq_nil_iff]
      intro ed hed
      simpa using hnone ed hed
    rw [h1]
    simp
  · rw [hq1d, hq2d, qclamp_of_bounds hw1.1 hw1.2, qclamp_of_bounds hw2.1 hw2.2,
      qclamp_of_bounds (le_max_of_le_left hw1.1) (max_le hw1.2 hw2.2)]
    rcases le_total w1 w2 with hc | hc
    · have hmq : u16cast (w1 * 65535) ≤ u16cast (w2 * 65535) := by
        apply u16cast_mono
        nlinarith
      rw [max_eq_right hc, Nat.max_eq_right hmq]
    · have hmq : u16cast (w2 * 65535) ≤ u16cast (w1 * 65535) := by
        apply u16cast_mono
        nlinarith
      rw [max_eq_left hc, Nat.max_eq_left hmq]

/-- Witness for C6: two concrete `add_edge` calls on a fresh engine. -/
theorem c6_witness :
    ((alookup ((AdvancedEngine.new.add_edge 1 2 (3/10)).add_edge 1 2 (7/10)).graph 1).getD
        []).filter (fun ed => ed.target_node_id == 2) =
      [({ target_node_id := 2
          connection_strength := max (u16cast (qclamp (3/10) 0 1 * 65535))
            (u16cast (qclamp (7/10) 0 1 * 65535))
          edge_type := 0 } :
        GraphEdge)] ∧
    max (u16cast (qclamp (3/10) 0 1 * 65535)) (u16cast (qclamp (7/10) 0 1 * 65535)) =
      u16cast (qclamp (max (3/10) (7/10) : ℚ) 0 1 * 65535) :=
  c6_add_edge_twice AdvancedEngine.new 1 2 (3/10) (7/10) (by norm_num) (by norm_num)
    (by simp [AdvancedEngine.new, alookup])

/-! ## C10: the chaos store stays aligned and duplicate-free -/

theorem chaosAdd_preserves (s : ChaosStore) (id : Int) (fp : ChaosFingerprint)
    (v : List ℚ) (h : ChaosAligned s) : ChaosAligned (s.add id fp v) := by
  obtain ⟨h1, h2, h3, h4⟩ := h
  unfold ChaosStore.add
  split
  case isTrue hs => exact ⟨h1, h2, h3, h4⟩
  case isFalse hs =>
    have hnone : alookup s.id_to_index id = none := Option.not_isSome_iff_eq_none.mp hs
    have hnotmem : id ∉ s.ids := by
      intro hmem
      rw [← h4 id, hnone] at hmem
      simp at hmem
    refine ⟨by simp [h1], by simp [h2], ?_, ?_⟩
    · intro i hi
      simp only [List.length_append, List.length_cons, List.length_nil] at hi
      have hins : ainsert s.id_to_index id s.ids.length =
          s.id_to_index ++ [(id, s.ids.length)] := by
        unfold ainsert
        rw [if_neg hs]
      by_cases hilt : i < s.ids.length
      · have hgl : (s.ids ++ [id])[i] = s.ids[i] := List.getElem_append_left hilt
        simp only [hins, hgl]
        rw [alookup_append, h3 i hilt]
      · have hieq : i = s.ids.length := by omega
        have hgr : (s.ids ++ [id])[i] = id := by
          subst hieq
          rw [List.getElem_append_right (le_refl _)]
          simp
        simp only [hins, hgr]
        rw [alookup_append, hnone]
        subst hieq
        simp [alookup]
    · intro k
      have hins : ainsert s.id_to_index id s.ids.length =
          s.id_to_index ++ [(id, s.ids.length)] := by
        unfold ainsert
        rw [if_neg hs]
      simp only [hins]
      rw [alookup_append]
      constructor
      · intro hk
        rcases hmatch : alookup s.id_to_index k with _ | w
        · rw [hmatch] at hk
          simp only [hmatch] at hk
          by_cases hik : id = k
          · subst hik
            simp
          · rw [alookup, if_neg hik] at hk
            simp [alookup] at hk
        · have : k ∈ s.ids := (h4 k).mp (by rw [hmatch]; rfl)
          simp [this]
      · intro hk
        rcases List.mem_append.mp hk with hk1 | hk2
        · have := (h4 k).mpr hk1
          rcases Option.isSome_iff_exists.mp this with ⟨w, hw⟩
          rw [hw]
          rfl
        · have hik : id = k := by
            have := List.mem_singleton.mp hk2
            omega
          rcases hmatch : alookup s.id_to_index k with _ | w
          · subst hik
            rw [alookup, if_pos rfl]
            rfl
          · rfl

theorem chaosRun_aligned (ops : List (Int × ChaosFingerprint × List ℚ)) :
    ∀ s : ChaosStore, ChaosAligned s →
      ChaosAligned (ops.foldl (fun s op => s.add op.1 op.2.1 op.2.2) s) := by
  induction ops with
  | nil => exact fun s h => h
  | cons op rest ih =>
    intro s h
    exact ih _ (chaosAdd_preserves s op.1 op.2.1 op.2.2 h)

/-- **C10.**  After any sequence of `ChaosStore::add` calls from the empty
store, the SoA columns are aligned (`ids`, `fingerprints`, `vectors` have
equal length with `id_to_index ids[i] = i`, and exactly the present ids
are mapped), and an `add` with an id already present leaves the store
completely unchanged. -/
theorem c10_chaos_store_aligned (ops : List (Int × ChaosFingerprint × List ℚ))
    (id : Int) (fp : ChaosFingerprint) (v : List ℚ) :
    ChaosAligned (runChaosAdds ops) ∧
    (id ∈ (runChaosAdds ops).ids → (runChaosAdds ops).add id fp v = runChaosAdds ops) := by
  have hnew : ChaosAligned ChaosStore.new := by
    refine ⟨rfl, rfl, ?_, ?_⟩
    · intro i hi
      simp [ChaosStore.new] at hi
    · intro k
      simp [ChaosStore.new, alookup]
  have hal : ChaosAligned (runChaosAdds ops) := chaosRun_aligned ops ChaosStore.new hnew
  refine ⟨hal, ?_⟩
  intro hmem
  have hs := (hal.2.2.2 id).mpr hmem
  unfold ChaosStore.add
  rw [if_pos hs]

/-- Witness for C10 on a one-element store with a duplicate `add`. -/
theorem c10_witness :
    ChaosAligned (runChaosAdds [(5, cfZero, [])]) ∧
    (runChaosAdds [(5, cfZero, [])]).add 5 cfZero [] = runChaosAdds [(5, cfZero, [])] :=
  ⟨(c10_chaos_store_aligned [(5, cfZero, [])] 5 cfZero []).1,
   (c10_chaos_store_aligned [(5, cfZero, [])] 5 cfZero []).2 (by decide)⟩

/-! ## C3: `apply_global_decay_and_pruning(1.0, 0)` -/

/-- Concrete `u16cast` evaluations (the kernel cannot reduce `ℚ`
arithmetic, so these bridge to `Nat` values). -/
theorem u16cast_zero_mul : u16cast ((0 : ℚ) * 65535) = 0 := by
  unfold u16cast
  norm_num

theorem u16cast_one_mul : u16cast ((1 : ℚ) * 65535) = 65535 := by
  unfold u16cast
  rw [one_mul, if_neg (by norm_num)]
  have hf : ⌊(65535 : ℚ)⌋ = 65535 := by
    rw [Int.floor_eq_iff]
    constructor <;> norm_num
  rw [hf]
  rfl

theorem u16cast_half_mul : u16cast ((1 / 2 : ℚ) * 65535) = 32767 := by
  unfold u16cast
  rw [if_neg (by norm_num)]
  have hf : ⌊((1 / 2 : ℚ) * 65535)⌋ = 32767 := by
    rw [Int.floor_eq_iff]
    constructor <;> norm_num
  rw [hf]
  rfl

theorem decayStrength_one_min (s : Nat) : decayStrength s 1 = min 65535 s := by
  unfold decayStrength u16cast
  rw [mul_one]
  by_cases h0 : s = 0
  · subst h0
    norm_num
  · have hpos : 0 < s := Nat.pos_of_ne_zero h0
    have hq : (0 : ℚ) < (s : ℚ) := by exact_mod_cast hpos
    rw [if_neg (not_le.mpr hq), Int.floor_natCast]
    simp

theorem decayStrength_one {s : Nat} (hs : s ≤ 65535) : decayStrength s 1 = s := by
  rw [decayStrength_one_min]
  omega

theorem zip_self_prune_count (l : List (Int × List GraphEdge)) (acc : Nat) :
    (l.zip l).foldl (fun acc p => acc + (p.1.2.length - p.2.2.length)) acc = acc := by
  induction l generalizing acc with
  | nil => rfl
  | cons p rest ih => simp [ih]

/-- **C3 counterexample.**  On an engine holding a zero-strength ontology
edge (created by `maintain_ontology` with strength `0`), the call
`apply_global_decay_and_pruning(1.0, 0)` prunes that edge and returns 1,
so it is not a no-op on every engine state. -/
theorem c3_counterexample :
    ((AdvancedEngine.new.maintain_ontology "cat" "dog" "representation"
        0).apply_global_decay_and_pruning 1 0).2 = 1 ∧
    ((AdvancedEngine.new.maintain_ontology "cat" "dog" "representation"
        0).apply_global_decay_and_pruning 1 0).2 ≠ 0 := by
  simp only [AdvancedEngine.apply_global_decay_and_pruning,
    AdvancedEngine.maintain_ontology, decayStrength_one_min, u16cast_zero_mul]
  decide

/-- **C3 (amended).**  `apply_global_decay_and_pruning(1.0, 0)` is a no-op
(identical engine, pruned count 0) on every engine whose ontology edges
all have strength in `(0, 65535]` — in particular on any state without
zero-strength edges; a strength-0 edge is pruned because the retain
condition is strictly `strength > threshold`. -/
theorem c3_decay_noop (e : AdvancedEngine)
    (hb : ∀ p ∈ e.ontology_graph, ∀ ed ∈ p.2,
      0 < ed.connection_strength ∧ ed.connection_strength ≤ 65535) :
    e.apply_global_decay_and_pruning 1 0 = (e, 0) := by
  unfold AdvancedEngine.apply_global_decay_and_pruning
  have hdec : e.ontology_graph.map (fun p => (p.1, p.2.map (fun ed =>
      { ed with connection_strength := decayStrength ed.connection_strength 1 }))) =
      e.ontology_graph := by
    conv =>
      rhs
      rw [← List.map_id e.ontology_graph]
    apply List.map_congr_left
    intro p hp
    simp only [id_eq]
    have hinner : p.2.map (fun ed =>
        { ed with connection_strength := decayStrength ed.connection_strength 1 }) = p.2 := by
      conv =>
        rhs
        rw [← List.map_id p.2]
      apply List.map_congr_left
      intro ed hed
      simp only [id_eq]
      rw [decayStrength_one (hb p hp ed hed).2]
    rw [hinner]
  have hfil : e.ontology_graph.map (fun p => (p.1, p.2.filter (fun ed =>
      0 < ed.connection_strength))) = e.ontology_graph := by
    conv =>
      rhs
      rw [← List.map_id e.ontology_graph]
    apply List.map_congr_left
    intro p hp
    simp only [id_eq]
    have hinner : p.2.filter (fun ed => 0 < ed.connection_strength) = p.2 := by
      rw [List.filter_eq_self]
      intro ed hed
      simpa using (hb p hp ed hed).1
    rw [hinner]
  simp only [hdec, hfil, zip_self_prune_count]

/-- Witness for C3 (amended) on an engine with one positive-strength
ontology edge pair. -/
theorem c3_witness :
    (AdvancedEngine.new.maintain_ontology "cat" "dog" "representation"
        1).apply_global_decay_and_pruning 1 0 =
      (AdvancedEngine.new.maintain_ontology "cat" "dog" "representation" 1, 0) :=
  c3_decay_noop _ (by
    simp only [AdvancedEngine.maintain_ontology, u16cast_one_mul]
    decide)

/-! ## C4: `persist` and its interruption points -/

/-- **C4 counterexample.**  Interrupting `persist` after the first rename
(step 3) — a point strictly before the renames complete, and inside the
window between writing the tmp files and the second rename — leaves the
index file already replaced while the data file still holds the original
bytes, so the two original files are not both intact. -/
theorem c4_counterexample :
    (persistUpTo 3 (c4State, c4Files)).2.indexFile ≠ c4Files.indexFile ∧
    (persistUpTo 3 (c4State, c4Files)).2.dataFile = c4Files.dataFile ∧
    (persistUpTo 3 (c4State, c4Files)).2.tmpDataFile.isSome = true := by
  decide

/-- **C4 (amended).**  `persist` writes both merged files to sibling tmp
files and renames the index file first, then the data file: interrupting
at any point up to and including writing both tmp files (steps ≤ 2)
leaves both original files intact; after step 3 the data file is still
the original (but the index file has already been renamed over, as the
counterexample shows); a completed persist with a non-empty hot buffer
clears all six buffer columns, and with an empty buffer it is a no-op. -/
theorem c4_persist_steps (p : StorageEngine × StorageFiles) :
    (∀ k, k ≤ 2 → (persistUpTo k p).2.indexFile = p.2.indexFile ∧
      (persistUpTo k p).2.dataFile = p.2.dataFile) ∧
    (persistUpTo 3 p).2.dataFile = p.2.dataFile ∧
    (p.1.buffer_ids.isEmpty = false →
      (persistUpTo 5 p).1.buffer_ids = [] ∧
      (persistUpTo 5 p).1.buffer_simhashes = [] ∧
      (persistUpTo 5 p).1.buffer_texts = [] ∧
      (persistUpTo 5 p).1.buffer_node_types = [] ∧
      (persistUpTo 5 p).1.buffer_chaos_fingerprints = [] ∧
      (persistUpTo 5 p).1.buffer_chaos_vectors = []) ∧
    (p.1.buffer_ids.isEmpty = true → persistUpTo 5 p = p) := by
  refine ⟨?_, ?_, ?_, ?_⟩
  · intro k hk
    by_cases hemp : p.1.buffer_ids.isEmpty
    · unfold persistUpTo
      rw [if_pos hemp]
      exact ⟨rfl, rfl⟩
    · interval_cases k <;>
        · unfold persistUpTo
          rw [if_neg hemp]
          simp [persistStep, List.range_succ, List.range_zero, List.foldl_append,
            List.foldl_cons, List.foldl_nil]
  · by_cases hemp : p.1.buffer_ids.isEmpty
    · unfold persistUpTo
      rw [if_pos hemp]
    · unfold persistUpTo
      rw [if_neg hemp]
      simp [persistStep, List.range_succ, List.range_zero, List.foldl_append,
        List.foldl_cons, List.foldl_nil]
  · intro hemp
    unfold persistUpTo
    rw [if_neg (by rw [hemp]; exact Bool.false_ne_true)]
    simp [persistStep, reloadStorage, List.range_succ, List.range_zero, List.foldl_append,
      List.foldl_cons, List.foldl_nil]
  · intro hemp
    unfold persistUpTo
    rw [if_pos hemp]

/-- Witness for C4 (amended) at the concrete one-node storage state. -/
theorem c4_witness :
    ((persistUpTo 2 (c4State, c4Files)).2.indexFile = c4Files.indexFile ∧
     (persistUpTo 2 (c4State, c4Files)).2.dataFile = c4Files.dataFile) ∧
    (persistUpTo 5 (c4State, c4Files)).1.buffer_ids = [] :=
  ⟨(c4_persist_steps (c4State, c4Files)).1 2 (by decide),
   ((c4_persist_steps (c4State, c4Files)).2.2.1 (by decide)).1⟩

/-! ## C2: the `大前天` relative-time rule -/

/-- **C2 (code bug).**  In `compute_for_query` the `前天` branch is tested
before the `大前天` branch and `大前天` contains `前天` as a substring, so
the dedicated `大前天` branch (offset −259200, as its own comment and the
spec table state) is unreachable: the query `"大前天"` with
`ref_time = 1000000` resolves to `1000000 − 172800 = 827200` (two days),
and the temporal zone of the returned fingerprint is the 16-bit hash of
`827200` — observably different from the hash of
`740800 = 1000000 − 259200` required by the claim. -/
theorem c2_da_qian_tian_resolves_two_days :
    SimHash.queryTimestamp (lowerChars "大前天".data) 1000000 = 1000000 - 172800 ∧
    SimHash.compute_for_query "大前天".data 1000000 &&& SimHash.MASK_TEMPORAL =
      SimHash.compute_temporal_hash 827200 <<< 32 ∧
    SimHash.compute_temporal_hash 827200 <<< 32 ≠
      SimHash.compute_temporal_hash 740800 <<< 32 := by
  decide

/-! ## C8: timestamps and the temporal index of events -/

theorem extract_timestamp_default (bytes : List Nat)
    (h : bytesContain bytes yearBytes = false) :
    extract_timestamp_bytes bytes = 1672531200 := by
  unfold extract_timestamp_bytes
  have hfilter : (List.range bytes.length).filter
      (fun i => yearBytes.isPrefixOf (bytes.drop i)) = [] := by
    rw [List.filter_eq_nil_iff]
    intro i hi
    unfold bytesContain at h
    rw [List.any_eq_false] at h
    have hi' : i ∈ List.range (bytes.length + 1) := by
      rw [List.mem_range] at hi ⊢
      omega
    exact h i hi'
  rw [hfilter]
  rfl

/-- The temporal zone of a multimodal fingerprint with a positive
timestamp: the other three zones are masked away. -/
theorem compute_multimodal_temporal_zone (text : List Char) (ts em tv : Nat)
    (hts : 0 < ts) :
    SimHash.compute_multimodal text ts em tv &&& SimHash.MASK_TEMPORAL =
      (SimHash.compute_temporal_hash ts <<< 32) &&& SimHash.MASK_TEMPORAL := by
  unfold SimHash.compute_multimodal
  simp only [if_pos hts]
  simp only [Nat.and_distrib_right, Nat.land_assoc]
  rw [show SimHash.MASK_SEMANTIC &&& SimHash.MASK_TEMPORAL = 0 by decide]
  rw [show SimHash.MASK_AFFECTIVE &&& SimHash.MASK_TEMPORAL = 0 by decide]
  rw [show SimHash.MASK_TYPE &&& SimHash.MASK_TEMPORAL = 0 by decide]
  rw [show SimHash.MASK_TEMPORAL &&& SimHash.MASK_TEMPORAL = SimHash.MASK_TEMPORAL by decide]
  simp [Nat.and_zero, Nat.or_zero, Nat.zero_or]

/-- The node `add_event` stores under `id`. -/
theorem add_event_nodes (e : AdvancedEngine) (id : Int) (summary : String)
    (cf : Option ChaosFingerprint) (cv : Option (List ℚ)) :
    alookup (e.add_event id summary cf cv).nodes id =
      some { id := id, node_type := NodeType.Event, content := summary
             fingerprint := SimHash.compute_multimodal summary.data
               (extract_timestamp summary) (SimHash.extract_emotion summary.data) 0
             timestamp := extract_timestamp summary
             emotions := (List.range 8).foldl (fun acc i =>
               if SimHash.extract_emotion summary.data &&& (1 <<< i) ≠ 0 then
                 acc ++ [1 <<< i] else acc) []
             prev_event := none, next_event := none } := by
  unfold AdvancedEngine.add_event
  simp only [apply_ite (fun s : AdvancedEngine => s.nodes)]
  split <;> split <;>
    simp [alookup_ainsert_self]

/-- The temporal-index entry `add_event` appends to when the fingerprint
has a non-zero temporal zone. -/
theorem add_event_temporal_entry (e : AdvancedEngine) (id : Int) (summary : String)
    (cf : Option ChaosFingerprint) (cv : Option (List ℚ))
    (hz : SimHash.compute_multimodal summary.data (extract_timestamp summary)
        (SimHash.extract_emotion summary.data) 0 &&& SimHash.MASK_TEMPORAL ≠ 0) :
    alookup (e.add_event id summary cf cv).temporal_index
        ((SimHash.compute_multimodal summary.data (extract_timestamp summary)
          (SimHash.extract_emotion summary.data) 0 &&& SimHash.MASK_TEMPORAL) >>> 32) =
      some ((alookup e.temporal_index
        ((SimHash.compute_multimodal summary.data (extract_timestamp summary)
          (SimHash.extract_emotion summary.data) 0 &&& SimHash.MASK_TEMPORAL) >>> 32)).getD
          [] ++ [id]) := by
  unfold AdvancedEngine.add_event
  simp only [apply_ite (fun s : AdvancedEngine => s.temporal_index)]
  rw [if_pos hz]
  split <;> split <;>
    simp [alookup_aupdate_self]

/-- **C8 counterexample.**  `extract_timestamp` does not always return a
positive timestamp: the parsable date `1970年0月0日` maps to 0 through the
formula `(year−1970)·31536000 + month·2592000 + day·86400`, so the event
node gets timestamp 0, an empty temporal zone, and no temporal-index
entry. -/
theorem c8_counterexample :
    extract_timestamp "x1970年0月0日" = 0 ∧
    (alookup c8CounterEngine.nodes 1).map Node.timestamp = some 0 ∧
    (alookup c8CounterEngine.nodes 1).map
      (fun n => n.fingerprint &&& SimHash.MASK_TEMPORAL) = some 0 ∧
    c8CounterEngine.temporal_index = [] := by
  decide

/-- **C8 (amended).**  When the summary contains no `年` byte sequence (so
no `YYYY年MM月DD日` date is parsable), `extract_timestamp` returns the
default 1672531200 (2023-01-01), the stored event node has that positive
timestamp, its temporal zone is the (non-zero) 16-bit hash of 1672531200
shifted into bits [32,48), and the event id is appended to the matching
temporal-index bucket.  (Summaries with a parsable date can instead yield
timestamp 0 and skip the index, as the counterexample shows.) -/
theorem c8_add_event_default_timestamp (e : AdvancedEngine) (id : Int) (summary : String)
    (cf : Option ChaosFingerprint) (cv : Option (List ℚ))
    (h : bytesContain (utf8 summary.data) yearBytes = false) :
    extract_timestamp summary = 1672531200 ∧
    (alookup (e.add_event id summary cf cv).nodes id).map Node.timestamp =
      some 1672531200 ∧
    (alookup (e.add_event id summary cf cv).nodes id).map
        (fun n => n.fingerprint &&& SimHash.MASK_TEMPORAL) =
      some (SimHash.compute_temporal_hash 1672531200 <<< 32) ∧
    SimHash.compute_temporal_hash 1672531200 <<< 32 ≠ 0 ∧
    id ∈ (alookup (e.add_event id summary cf cv).temporal_index
        (SimHash.compute_temporal_hash 1672531200)).getD [] := by
  have hts : extract_timestamp summary = 1672531200 :=
    extract_timestamp_default _ h
  have hzone : SimHash.compute_multimodal summary.data (extract_timestamp summary)
      (SimHash.extract_emotion summary.data) 0 &&& SimHash.MASK_TEMPORAL =
      SimHash.compute_temporal_hash 1672531200 <<< 32 := by
    rw [hts, compute_multimodal_temporal_zone _ _ _ _ (by norm_num)]
    decide
  have hnz : SimHash.compute_temporal_hash 1672531200 <<< 32 ≠ 0 := by
    decide
  refine ⟨hts, ?_, ?_, hnz, ?_⟩
  · rw [add_event_nodes]
    simp [hts]
  · rw [add_event_nodes]
    simp [hzone]
  · have hent := add_event_temporal_entry e id summary cf cv (by rw [hzone]; exact hnz)
    rw [hzone] at hent
    have hkey : (SimHash.compute_temporal_hash 1672531200 <<< 32) >>> 32 =
        SimHash.compute_temporal_hash 1672531200 := by
      decide
    rw [hkey] at hent
    rw [hent]
    simp

/-- Witness for C8 (amended) at a concrete date-free summary. -/
theorem c8_witness :
    bytesContain (utf8 "hello".data) yearBytes = false ∧
    extract_timestamp "hello" = 1672531200 ∧
    (2 : Int) ∈ (alookup (AdvancedEngine.new.add_event 2 "hello" none none).temporal_index
        (SimHash.compute_temporal_hash 1672531200)).getD [] :=
  ⟨by decide,
   (c8_add_event_default_timestamp AdvancedEngine.new 2 "hello" none none (by decide)).1,
   (c8_add_event_default_timestamp AdvancedEngine.new 2 "hello" none none
     (by decide)).2.2.2.2⟩

/-! ## C9: `get_or_create_feature` -/

/-- **C9.**  For a non-stopword word not yet registered, the call returns
the absolute value (with `i64` wrapping at `i64::MIN`) of the seed-0
XxHash64 of the lowercased word (hashed as Rust hashes `str`: UTF-8 bytes
plus the `0xFF` terminator), registers the feature, and a second call
returns the same id while leaving the engine state completely unchanged;
for every stopword the call returns the `-1` sentinel and does not touch
the engine. -/
theorem c9_get_or_create_feature (e : AdvancedEngine) (word : String)
    (hsw : stopwords.contains (lowerString word) = false)
    (hmiss : alookup e.keyword_to_node (lowerString word) = none) :
    (e.get_or_create_feature word).1 =
      absI64 (u64ToI64 (rustStrHash 0 (lowerString word).data)) ∧
    (e.get_or_create_feature word).2.get_or_create_feature word =
      ((e.get_or_create_feature word).1, (e.get_or_create_feature word).2) ∧
    (∀ sw : String, stopwords.contains (lowerString sw) = true →
      e.get_or_create_feature sw = (-1, e)) := by
  have hcore : e.get_or_create_feature word =
      (absI64 (u64ToI64 (rustStrHash 0 (lowerString word).data)),
       e.add_feature (absI64 (u64ToI64 (rustStrHash 0 (lowerString word).data)))
         (lowerString word)) := by
    unfold AdvancedEngine.get_or_create_feature
    simp only [hsw, Bool.false_eq_true, if_false, hmiss]
  have hadd : (e.add_feature (absI64 (u64ToI64 (rustStrHash 0 (lowerString word).data)))
      (lowerString word)).keyword_to_node =
      ainsert e.keyword_to_node (lowerString word)
        (absI64 (u64ToI64 (rustStrHash 0 (lowerString word).data))) := by
    unfold AdvancedEngine.add_feature
    rw [lowerString_idem]
    simp only [hsw, Bool.false_eq_true, if_false]
  refine ⟨by rw [hcore], ?_, ?_⟩
  · rw [hcore]
    unfold AdvancedEngine.get_or_create_feature
    simp only [hsw, Bool.false_eq_true, if_false, hadd, alookup_ainsert_self]
  · intro sw hswt
    unfold AdvancedEngine.get_or_create_feature
    simp only [hswt, if_true]

/-- Witness for C9: the word `"cat"` on a fresh engine and the stopword
`"的"`. -/
theorem c9_witness :
    stopwords.contains (lowerString "cat") = false ∧
    (AdvancedEngine.new.get_or_create_feature "cat").1 =
      absI64 (u64ToI64 (rustStrHash 0 (lowerString "cat").data)) ∧
    (AdvancedEngine.new.get_or_create_feature "cat").2.get_or_create_feature "cat" =
      ((AdvancedEngine.new.get_or_create_feature "cat").1,
       (AdvancedEngine.new.get_or_create_feature "cat").2) ∧
    AdvancedEngine.new.get_or_create_feature "的" = (-1, AdvancedEngine.new) := by
  have h := c9_get_or_create_feature AdvancedEngine.new "cat" (by decide) rfl
  exact ⟨by decide, h.1, h.2.1, h.2.2 "的" (by decide)⟩

/-! ## C1: symmetry of Equality/Inhibition ontology edges -/

theorem alookup_isSome_of_mem {κ α : Type} [DecidableEq κ] (m : List (κ × α)) (k : κ)
    (v : α) (h : (k, v) ∈ m) : (alookup m k).isSome = true := by
  induction m with
  | nil => cases h
  | cons p rest ih =>
    rcases List.mem_cons.mp h with h1 | h2
    · rw [alookup, if_pos (by rw [← h1])]
      rfl
    · by_cases hp : p.1 = k
      · rw [alookup, if_pos hp]
        rfl
      · rw [alookup, if_neg hp]
        exact ih h2

theorem mem_of_alookup_eq_some {κ α : Type} [DecidableEq κ] (m : List (κ × α)) (k : κ)
    (v : α) (h : alookup m k = some v) : (k, v) ∈ m := by
  induction m with
  | nil => cases h
  | cons p rest ih =>
    by_cases hp : p.1 = k
    · rw [alookup, if_pos hp] at h
      have hv : v = p.2 := (Option.some_inj.mp h).symm
      have hpv : (k, v) = p := by
        rw [hv, ← hp]
      rw [hpv]
      exact List.mem_cons_self _ _
    · rw [alookup, if_neg hp] at h
      exact List.mem_cons_of_mem p (ih h)

theorem aupdate_mem_of_mem {κ α : Type} [DecidableEq κ] (m : List (κ × α)) (k : κ)
    (d : α) (f : α → α) (p : κ × α) (hp : p ∈ m) (hne : p.1 ≠ k) :
    p ∈ aupdate m k d f := by
  unfold aupdate
  split
  · exact List.mem_map.mpr ⟨p, hp, by rw [if_neg hne]⟩
  · exact List.mem_append_left _ hp

theorem aupdate_mem_mapped {κ α : Type} [DecidableEq κ] (m : List (κ × α)) (k : κ)
    (d : α) (f : α → α) (v : α) (h : (k, v) ∈ m) : (k, f v) ∈ aupdate m k d f := by
  unfold aupdate
  rw [if_pos (alookup_isSome_of_mem m k v h)]
  exact List.mem_map.mpr ⟨(k, v), h, by rw [if_pos rfl]⟩

theorem aupdate_mem_canonical {κ α : Type} [DecidableEq κ] (m : List (κ × α)) (k : κ)
    (d : α) (f : α → α) : (k, f ((alookup m k).getD d)) ∈ aupdate m k d f := by
  rcases hm : alookup m k with _ | v
  · unfold aupdate
    rw [hm]
    simp
  · have := aupdate_mem_mapped m k d f v (mem_of_alookup_eq_some m k v hm)
    simpa using this

theorem aupdate_mem_provenance {κ α : Type} [DecidableEq κ] (m : List (κ × α)) (k : κ)
    (d : α) (f : α → α) (p : κ × α) (hp : p ∈ aupdate m k d f) :
    p ∈ m ∨ (p.1 = k ∧ ∃ v, p.2 = f v ∧ ((k, v) ∈ m ∨ v = d)) := by
  unfold aupdate at hp
  split at hp
  · rcases List.mem_map.mp hp with ⟨q, hq, hmap⟩
    by_cases hqk : q.1 = k
    · right
      rw [if_pos hqk] at hmap
      refine ⟨?_, q.2, ?_, Or.inl ?_⟩
      · rw [← hmap]
        exact hqk
      · rw [← hmap]
      · rw [← hqk]
        exact hq
    · left
      rw [if_neg hqk] at hmap
      rw [← hmap]
      exact hq
  · rcases List.mem_append.mp hp with h1 | h2
    · exact Or.inl h1
    · right
      have hpd : p = (k, f d) := List.mem_singleton.mp h2
      exact ⟨by rw [hpd], d, by rw [hpd], Or.inr rfl⟩

theorem updateFirstEdge_provenance (edges : List GraphEdge) (t : Int)
    (f : GraphEdge → GraphEdge) (ed : GraphEdge)
    (hed : ed ∈ updateFirstEdge edges t f) :
    ed ∈ edges ∨ ∃ ed0 ∈ edges, ed0.target_node_id = t ∧ ed = f ed0 := by
  induction edges with
  | nil => cases hed
  | cons e0 rest ih =>
    unfold updateFirstEdge at hed
    split at hed
    case isTrue h0 =>
      rcases List.mem_cons.mp hed with h1 | h2
      · exact Or.inr ⟨e0, by simp, h0, h1⟩
      · exact Or.inl (List.mem_cons_of_mem _ h2)
    case isFalse h0 =>
      rcases List.mem_cons.mp hed with h1 | h2
      · exact Or.inl (by rw [h1]; simp)
      · rcases ih h2 with h3 | ⟨ed0, hed0, ht, hf⟩
        · exact Or.inl (List.mem_cons_of_mem _ h3)
        · exact Or.inr ⟨ed0, List.mem_cons_of_mem _ hed0, ht, hf⟩

theorem maintainEdge_provenance (edges : List GraphEdge) (t : Int) (su τ : Nat)
    (ed : GraphEdge) (hed : ed ∈ maintainEdge edges t su τ) :
    ed ∈ edges ∨ (ed.target_node_id = t ∧ ed.edge_type = τ) := by
  unfold maintainEdge at hed
  split at hed
  · rcases updateFirstEdge_provenance _ _ _ _ hed with h1 | ⟨ed0, _, ht, hf⟩
    · exact Or.inl h1
    · right
      rw [hf]
      exact ⟨ht, rfl⟩
  · rcases List.mem_append.mp hed with h1 | h2
    · exact Or.inl h1
    · right
      rw [List.mem_singleton.mp h2]
      exact ⟨rfl, rfl⟩

theorem updateFirstEdge_mem_target (edges : List GraphEdge) (t : Int)
    (f : GraphEdge → GraphEdge) (ed : GraphEdge) (hed : ed ∈ edges) :
    ∃ ed2 ∈ updateFirstEdge edges t f,
      ed2.target_node_id = ed.target_node_id ∨
      (ed2 = f ed ∧ ed.target_node_id = t) := by
  induction edges with
  | nil => cases hed
  | cons e0 rest ih =>
    unfold updateFirstEdge
    split
    case isTrue h0 =>
      rcases List.mem_cons.mp hed with h1 | h2
      · exact ⟨f e0, by simp, Or.inr ⟨by rw [h1], by rw [h1]; exact h0⟩⟩
      · exact ⟨ed, List.mem_cons_of_mem _ h2, Or.inl rfl⟩
    case isFalse h0 =>
      rcases List.mem_cons.mp hed with h1 | h2
      · exact ⟨e0, by simp, Or.inl (by rw [h1])⟩
      · rcases ih h2 with ⟨ed2, hed2, hc⟩
        exact ⟨ed2, List.mem_cons_of_mem _ hed2, hc⟩

theorem maintainEdge_target_mem (edges : List GraphEdge) (t : Int) (su τ : Nat) :
    ∃ ed ∈ maintainEdge edges t su τ, ed.target_node_id = t := by
  unfold maintainEdge
  split
  case isTrue hs =>
    rcases List.any_eq_true.mp hs with ⟨ed0, hed0, hbeq⟩
    have ht0 : ed0.target_node_id = t := by simpa using hbeq
    rcases updateFirstEdge_mem_target edges t _ ed0 hed0 with ⟨ed2, hed2, hc⟩
    rcases hc with h1 | ⟨h2, _⟩
    · exact ⟨ed2, hed2, by rw [h1, ht0]⟩
    · refine ⟨ed2, hed2, ?_⟩
      rw [h2]
      exact ht0
  case isFalse hs =>
    exact ⟨{ target_node_id := t, connection_strength := su, edge_type := τ },
      List.mem_append_right _ (by simp), rfl⟩

theorem maintainEdge_preserves_target (edges : List GraphEdge) (t : Int) (su τ : Nat)
    (b : Int) (h : ∃ ed ∈ edges, ed.target_node_id = b) :
    ∃ ed ∈ maintainEdge edges t su τ, ed.target_node_id = b := by
  obtain ⟨ed, hed, hb⟩ := h
  unfold maintainEdge
  split
  case isTrue hs =>
    rcases updateFirstEdge_mem_target edges t _ ed hed with ⟨ed2, hed2, hc⟩
    rcases hc with h1 | ⟨h2, h3⟩
    · exact ⟨ed2, hed2, by rw [h1, hb]⟩
    · refine ⟨ed2, hed2, ?_⟩
      rw [h2]
      show ed.target_node_id = b
      exact hb
  case isFalse hs =>
    exact ⟨ed, List.mem_append_left _ hed, hb⟩

/-- Origin of an edge in an updated adjacency: either some original entry
with the same key contained it, or it is the freshly maintained edge. -/
theorem edge_origin (g : List (Int × List GraphEdge)) (k tgtE : Int) (su τ : Nat)
    (p : Int × List GraphEdge)
    (hp : p ∈ aupdate g k [] (fun edges => maintainEdge edges tgtE su τ))
    (ed : GraphEdge) (hed : ed ∈ p.2) :
    (∃ q ∈ g, q.1 = p.1 ∧ ed ∈ q.2) ∨
      (p.1 = k ∧ ed.target_node_id = tgtE ∧ ed.edge_type = τ) := by
  rcases aupdate_mem_provenance g k [] _ p hp with h1 | ⟨hk, v, hv, hv2⟩
  · exact Or.inl ⟨p, h1, rfl, hed⟩
  · rw [hv] at hed
    rcases maintainEdge_provenance v tgtE su τ ed hed with h2 | ⟨ht, hty⟩
    · rcases hv2 with h3 | h3
      · exact Or.inl ⟨(k, v), h3, by rw [hk], h2⟩
      · rw [h3] at h2
        cases h2
    · exact Or.inr ⟨hk, ht, hty⟩

/-- Reverse-edge existence transfers across an adjacency update. -/
theorem rev_transfer (g : List (Int × List GraphEdge)) (k tgtE : Int) (su τ : Nat)
    (a b : Int) (h : ∃ q ∈ g, q.1 = a ∧ ∃ ed2 ∈ q.2, ed2.target_node_id = b) :
    ∃ q ∈ aupdate g k [] (fun edges => maintainEdge edges tgtE su τ),
      q.1 = a ∧ ∃ ed2 ∈ q.2, ed2.target_node_id = b := by
  obtain ⟨q, hq, hqa, hex⟩ := h
  by_cases hqk : q.1 = k
  · refine ⟨(k, maintainEdge q.2 tgtE su τ),
      aupdate_mem_mapped g k [] _ q.2 (by rw [← hqk]; exact hq), hqk.symm.trans hqa,
      maintainEdge_preserves_target q.2 tgtE su τ b hex⟩
  · exact ⟨q, aupdate_mem_of_mem g k [] _ q hq hqk, hqa, hex⟩

/-- Mutual reverse-edge existence is preserved by the edge maintenance of
`maintain_ontology` (both directions for Equality/Inhibition, forward only
for Representation). -/
theorem edgeMutual_maintained (g : List (Int × List GraphEdge)) (srcId tgtId : Int)
    (su τ : Nat) (hg : EdgeMutual g) :
    EdgeMutual (if τ = 1 ∨ τ = 255 then
        aupdate (aupdate g srcId [] (fun edges => maintainEdge edges tgtId su τ)) tgtId []
          (fun edges => maintainEdge edges srcId su τ)
      else aupdate g srcId [] (fun edges => maintainEdge edges tgtId su τ)) := by
  split
  case isTrue hτ =>
    intro p hp ed hed htyped
    rcases edge_origin (aupdate g srcId [] (fun edges => maintainEdge edges tgtId su τ))
      tgtId srcId su τ p hp ed hed with hA | ⟨hpk, htgt, hty⟩
    · obtain ⟨q1, hq1, hq1p, hedq1⟩ := hA
      rcases edge_origin g srcId tgtId su τ q1 hq1 ed hedq1 with hA1 | ⟨hq1k, htgt2, hty2⟩
      · obtain ⟨q0, hq0, hq0p, hedq0⟩ := hA1
        have hrev := hg q0 hq0 ed hedq0 htyped
        rw [hq0p, hq1p] at hrev
        exact rev_transfer _ tgtId srcId su τ _ _
          (rev_transfer g srcId tgtId su τ _ _ hrev)
      · refine ⟨(tgtId, maintainEdge
            ((alookup (aupdate g srcId [] (fun edges => maintainEdge edges tgtId su τ))
              tgtId).getD []) srcId su τ),
          aupdate_mem_canonical _ tgtId [] _, htgt2.symm, ?_⟩
        obtain ⟨ed2, hed2, hed2t⟩ := maintainEdge_target_mem
          ((alookup (aupdate g srcId [] (fun edges => maintainEdge edges tgtId su τ))
            tgtId).getD []) srcId su τ
        refine ⟨ed2, hed2, ?_⟩
        rw [hed2t, ← hq1k]
        exact hq1p
    · have hinner : ∃ q ∈ aupdate g srcId [] (fun edges => maintainEdge edges tgtId su τ),
          q.1 = srcId ∧ ∃ ed2 ∈ q.2, ed2.target_node_id = tgtId :=
        ⟨(srcId, maintainEdge ((alookup g srcId).getD []) tgtId su τ),
          aupdate_mem_canonical g srcId [] _, rfl,
          maintainEdge_target_mem ((alookup g srcId).getD []) tgtId su τ⟩
      have houter := rev_transfer _ tgtId srcId su τ srcId tgtId hinner
      rw [htgt, hpk]
      exact houter
  case isFalse hτ =>
    intro p hp ed hed htyped
    rcases edge_origin g srcId tgtId su τ p hp ed hed with hA | ⟨hpk, htgt, hty⟩
    · obtain ⟨q0, hq0, hq0p, hedq0⟩ := hA
      have hrev := hg q0 hq0 ed hedq0 htyped
      rw [hq0p] at hrev
      exact rev_transfer g srcId tgtId su τ _ _ hrev
    · apply absurd _ hτ
      rcases htyped with h1 | h1
      · exact Or.inl (hty.symm.trans h1)
      · exact Or.inr (hty.symm.trans h1)

/-- `get_or_create_feature` never touches the ontology graph. -/
theorem get_or_create_ontology (e : AdvancedEngine) (w : String) :
    (e.get_or_create_feature w).2.ontology_graph = e.ontology_graph := by
  unfold AdvancedEngine.get_or_create_feature AdvancedEngine.add_feature
  by_cases hsw : stopwords.contains (lowerString w) = true
  · simp only [if_pos hsw]
  · simp only [if_neg hsw]
    rcases hlk : alookup e.keyword_to_node (lowerString w) with _ | id
    · simp only [hlk]
      simp [apply_ite (fun s : AdvancedEngine => s.ontology_graph)]
    · simp only [hlk]

theorem maintain_ontology_mutual (e : AdvancedEngine) (src tgt rel : String) (w : ℚ)
    (hg : EdgeMutual e.ontology_graph) :
    EdgeMutual (e.maintain_ontology src tgt rel w).ontology_graph := by
  have h2 : ((e.get_or_create_feature src).2.get_or_create_feature tgt).2.ontology_graph =
      e.ontology_graph := by
    rw [get_or_create_ontology, get_or_create_ontology]
  unfold AdvancedEngine.maintain_ontology
  simp only [h2]
  exact edgeMutual_maintained e.ontology_graph _ _ _ _ hg

theorem execute_maintenance_mutual (e : AdvancedEngine)
    (a src tgt rel : String) (w : ℚ) (hg : EdgeMutual e.ontology_graph) :
    EdgeMutual (e.execute_maintenance a src tgt rel w).ontology_graph := by
  unfold AdvancedEngine.execute_maintenance
  by_cases h1 : lowerString a = "upsert"
  · simp only [if_pos h1]
    exact maintain_ontology_mutual e src tgt rel w hg
  · simp only [if_neg h1]
    by_cases h2 : lowerString a = "replace"
    · simp only [if_pos h2]
      exact maintain_ontology_mutual e src tgt rel w hg
    · simp only [if_neg h2]
      exact hg

/-- **C1 (amended).**  After any sequence of `maintain_ontology` and
`execute_maintenance` calls (no `apply_arbitration`), every ontology
Equality or Inhibition edge `src→tgt` has some reverse edge `tgt→src`
in the ontology graph — but, as the counterexample shows, not necessarily
with the same `connection_strength` or `edge_type`, and
`apply_arbitration` can remove one direction alone, breaking even reverse
existence. -/
theorem c1_equality_edges_mutual (ops : List MaintOp)
    (hnoarb : ∀ op ∈ ops, op.isArbitrate = false) :
    EdgeMutual (runMaintOps ops).ontology_graph := by
  have main : ∀ (l : List MaintOp) (s : AdvancedEngine),
      (∀ op ∈ l, op.isArbitrate = false) → EdgeMutual s.ontology_graph →
      EdgeMutual (l.foldl MaintOp.apply s).ontology_graph := by
    intro l
    induction l with
    | nil => exact fun s _ h => h
    | cons op rest ih =>
      intro s hno h
      rw [List.foldl_cons]
      apply ih
      · intro o ho
        exact hno o (List.mem_cons_of_mem _ ho)
      · cases op with
        | maintain src tgt rel w => exact maintain_ontology_mutual s src tgt rel w h
        | execute a src tgt rel w => exact execute_maintenance_mutual s a src tgt rel w h
        | arbitrate src ts =>
          have := hno _ (List.mem_cons_self _ _)
          simp [MaintOp.isArbitrate] at this
  apply main ops AdvancedEngine.new hnoarb
  intro p hp
  simp [AdvancedEngine.new] at hp

/-- **C1 counterexample.**  Trace A (`equality` then `representation` on
the same pair) leaves the reverse edge typed Equality while the forward
edge is retyped Representation with a Hebbian-reinforced strength, so the
claimed same-strength/same-type symmetry fails even without arbitration;
trace B (`equality` then `apply_arbitration`) deletes only the forward
edge, so after arbitration even reverse-edge existence fails. -/
theorem c1_counterexample :
    ¬ EdgeSymmSameStrength (runMaintOps c1TraceA).ontology_graph ∧
    ¬ EdgeMutual (runMaintOps c1TraceB).ontology_graph := by
  constructor
  · unfold EdgeSymmSameStrength
    simp only [runMaintOps, c1TraceA, List.foldl_cons, List.foldl_nil, MaintOp.apply,
      AdvancedEngine.maintain_ontology, u16cast_half_mul]
    decide
  · unfold EdgeMutual
    simp only [runMaintOps, c1TraceB, List.foldl_cons, List.foldl_nil, MaintOp.apply,
      AdvancedEngine.maintain_ontology, AdvancedEngine.apply_arbitration, u16cast_one_mul]
    decide

/-- Witness for C1 (amended): a single arbitration-free Equality trace. -/
theorem c1_witness :
    (∀ op ∈ [MaintOp.maintain "cat" "dog" "equality" 1], op.isArbitrate = false) ∧
    EdgeMutual (runMaintOps [MaintOp.maintain "cat" "dog" "equality" 1]).ontology_graph :=
  ⟨by decide, c1_equality_edges_mutual _ (by decide)⟩
